import Mathlib

/-!
# sda-admin: command dispatch and request construction

A shallow embedding of `sda-admin/main.go` and `sda-admin/dataset/dataset.go`
together with the parts of the Go standard library they rest on
(`path.Join`, `net/url`, `flag`).

Go strings are byte sequences.  Strings that the program only compares,
concatenates and prints are modelled as `String`; wherever the bytes are
inspected or rewritten (URL parsing, escaping, path cleaning) they are
modelled as `Bytes`, the UTF-8 encoding of the string.
-/

namespace SdaAdmin

/-- The bytes of a Go string. -/
abbrev Bytes := List UInt8

deriving instance DecidableEq for Except

/-- UTF-8 encoding of a string, the representation Go gives a string value. -/
def utf8 (s : String) : Bytes := s.toList.flatMap String.utf8EncodeChar

/-- The byte of an ASCII character literal. -/
def ch (c : Char) : UInt8 := c.toUInt8

/-- Go `strings.Cut` with a one-byte separator: the text before and after the
first occurrence of `sep`, and whether it occurs. -/
def cut {α : Type} [DecidableEq α] (sep : α) : List α → List α × List α × Bool
  | [] => ([], [], false)
  | c :: rest =>
    if c = sep then ([], rest, true)
    else
      let r := cut sep rest
      (c :: r.1, r.2.1, r.2.2)

/-! ## Package `path`

`path.Clean` and `path.Join`. -/

namespace GoPath

/-- The backtracking step of `Clean` for a `..` element: starting from write
index `w`, move left while `w > dotdot` and the byte at `w` is not a slash. -/
def backtrack (out : Bytes) (dotdot : Nat) : Nat → Nat
  | 0 => 0
  | w + 1 =>
    if w + 1 > dotdot ∧ out.getD (w + 1) 0 ≠ ch '/' then backtrack out dotdot w
    else w + 1

/-- The main loop of `path.Clean`.  The first list is `path[r:]`, `out` is
the buffer written so far (`out.w` is its length) and `dotdot` the index
where `..` must stop.  The flag `copying` is true while the inner loop that
copies a real path element is running. -/
def cleanLoop (rooted : Bool) : Bytes → Bool → Bytes → Nat → Bytes
  | [], _, out, _ => out
  | c :: rest, true, out, dotdot =>
    if c = ch '/' then cleanLoop rooted rest false out dotdot
    else cleanLoop rooted rest true (out ++ [c]) dotdot
  | [c], false, out, _ =>
    if c = ch '/' then out
    else if c = ch '.' then out
    else
      (if (rooted && out.length != 1) || (!rooted && out.length != 0) then
        out ++ [ch '/']
      else out) ++ [c]
  | c :: d :: rest2, false, out, dotdot =>
    if c = ch '/' then
      -- empty path element
      cleanLoop rooted (d :: rest2) false out dotdot
    else if c = ch '.' ∧ d = ch '/' then
      -- . element
      cleanLoop rooted (d :: rest2) false out dotdot
    else if c = ch '.' ∧ d = ch '.' ∧ (rest2 = [] ∨ rest2.head? = some (ch '/')) then
      -- .. element: remove to last /
      if out.length > dotdot then
        cleanLoop rooted rest2 false
          (out.take (backtrack out dotdot (out.length - 1))) dotdot
      else if !rooted then
        let out1 := (if out.length > 0 then out ++ [ch '/'] else out) ++ [ch '.', ch '.']
        cleanLoop rooted rest2 false out1 out1.length
      else
        cleanLoop rooted rest2 false out dotdot
    else
      -- real path element: add slash if needed, then copy the element
      let out1 :=
        if (rooted && out.length != 1) || (!rooted && out.length != 0) then
          out ++ [ch '/']
        else out
      cleanLoop rooted (d :: rest2) true (out1 ++ [c]) dotdot

/-- Go `path.Clean`. -/
def Clean (path : Bytes) : Bytes :=
  if path = [] then utf8 "."
  else
    let rooted := path.head? = some (ch '/')
    let out :=
      if rooted then cleanLoop true path.tail false [ch '/'] 1
      else cleanLoop false path false [] 0
    if out.length = 0 then utf8 "." else out

/-- The buffer that `path.Join` builds before cleaning: the non-empty leading
elements separated by slashes. -/
def joinBuf : Bytes → List Bytes → Bytes
  | buf, [] => buf
  | buf, e :: es =>
    if buf.length > 0 ∨ e ≠ [] then
      joinBuf ((if buf.length > 0 then buf ++ [ch '/'] else buf) ++ e) es
    else joinBuf buf es

/-- Go `path.Join`. -/
def Join (elems : List Bytes) : Bytes :=
  if (elems.map List.length).sum = 0 then []
  else Clean (joinBuf [] elems)

/-- A path element that `Clean` keeps as it is: not empty, without slash, and
neither `.` nor `..`. -/
def isElement (e : Bytes) : Prop :=
  e ≠ [] ∧ ch '/' ∉ e ∧ e ≠ utf8 "." ∧ e ≠ utf8 ".."

instance (e : Bytes) : Decidable (isElement e) := by
  unfold isElement; infer_instance

/-- The rooted path `/e1/e2/.../en` of the elements `e1 ... en`. -/
def rootedPath (es : List Bytes) : Bytes := es.flatMap fun e => ch '/' :: e

/-- The text the loop of `Clean` has written once it starts a new element:
a separator is added unless the output is empty (or only the root). -/
def withSep (r : Bool) (out : Bytes) : Bytes :=
  if (r && out.length != 1) || (!r && out.length != 0) then out ++ [ch '/'] else out

end GoPath

/-! ## Package `net/url`

`url.Parse` and `(*URL).String` with the functions they call, after the Go
1.22 sources. -/

namespace GoUrl

/-- The `encoding` modes of `net/url`. -/
inductive Encoding
  | encodePath
  | encodePathSegment
  | encodeHost
  | encodeZone
  | encodeUserPassword
  | encodeQueryComponent
  | encodeFragment
  deriving DecidableEq, Repr

/-- The reasons for which `url.Parse` fails. -/
inductive ParseErr
  /-- "net/url: invalid control character in URL" -/
  | controlCharacter
  /-- "missing protocol scheme" -/
  | missingScheme
  /-- "first path segment in URL cannot contain colon" -/
  | colonInFirstSegment
  /-- `EscapeError`: "invalid URL escape" with the offending text -/
  | escapeError (s : Bytes)
  /-- `InvalidHostError`: "invalid character ... in host name" -/
  | invalidHost (s : Bytes)
  /-- "missing ']' in host" -/
  | missingBracket
  /-- "invalid port ... after host" -/
  | invalidPort (s : Bytes)
  /-- "net/url: invalid userinfo" -/
  | invalidUserinfo
  deriving DecidableEq, Repr

/-- Go `url.Error`: the operation, the URL text and the underlying reason. -/
structure Error where
  Op : String
  URL : Bytes
  Err : ParseErr
  deriving DecidableEq, Repr

/-- Go `url.Userinfo`. -/
structure Userinfo where
  username : Bytes
  password : Bytes
  passwordSet : Bool
  deriving DecidableEq, Repr

/-- Go `url.URL`. -/
structure URL where
  Scheme : Bytes := []
  Opaque : Bytes := []
  User : Option Userinfo := none
  Host : Bytes := []
  Path : Bytes := []
  RawPath : Bytes := []
  OmitHost : Bool := false
  ForceQuery : Bool := false
  RawQuery : Bytes := []
  Fragment : Bytes := []
  RawFragment : Bytes := []
  deriving DecidableEq, Repr

def ishex (c : UInt8) : Bool :=
  (ch '0' ≤ c && c ≤ ch '9') || (ch 'a' ≤ c && c ≤ ch 'f') || (ch 'A' ≤ c && c ≤ ch 'F')

def unhex (c : UInt8) : UInt8 :=
  if ch '0' ≤ c ∧ c ≤ ch '9' then c - ch '0'
  else if ch 'a' ≤ c ∧ c ≤ ch 'f' then c - ch 'a' + 10
  else if ch 'A' ≤ c ∧ c ≤ ch 'F' then c - ch 'A' + 10
  else 0

/-- Go `shouldEscape`: whether byte `c` is written as `%XX` in the given
part of a URL. -/
def shouldEscape (c : UInt8) (mode : Encoding) : Bool :=
  if (ch 'a' ≤ c ∧ c ≤ ch 'z') ∨ (ch 'A' ≤ c ∧ c ≤ ch 'Z') ∨ (ch '0' ≤ c ∧ c ≤ ch '9') then
    false
  else if (mode = .encodeHost ∨ mode = .encodeZone) ∧ c ∈ utf8 "!$&'()*+,;=:[]<>\"" then
    false
  else if c ∈ utf8 "-_.~" then
    false
  else if c ∈ utf8 "$&+,/:;=?@" ∧ mode = .encodePath then
    c = ch '?'
  else if c ∈ utf8 "$&+,/:;=?@" ∧ mode = .encodePathSegment then
    c = ch '/' || c = ch ';' || c = ch ',' || c = ch '?'
  else if c ∈ utf8 "$&+,/:;=?@" ∧ mode = .encodeUserPassword then
    c = ch '@' || c = ch '/' || c = ch '?' || c = ch ':'
  else if c ∈ utf8 "$&+,/:;=?@" ∧ mode = .encodeQueryComponent then
    true
  else if c ∈ utf8 "$&+,/:;=?@" ∧ mode = .encodeFragment then
    false
  else if mode = .encodeFragment ∧ c ∈ utf8 "!()*" then
    false
  else
    true

/-- The first pass of Go `unescape`: every `%` must start a well-formed
escape that the mode admits, and host text must not hold a byte that would
need escaping.  Returns the error, if any. -/
def unescapeCheck (mode : Encoding) : Bytes → Option ParseErr
  | [] => none
  | [c] =>
    if c = ch '%' then some (.escapeError [c])
    else if (mode = .encodeHost ∨ mode = .encodeZone) ∧ c < 0x80 ∧ shouldEscape c .encodeHost then
      some (.invalidHost [c])
    else none
  | [c, d] =>
    if c = ch '%' then some (.escapeError [c, d])
    else if (mode = .encodeHost ∨ mode = .encodeZone) ∧ c < 0x80 ∧ shouldEscape c .encodeHost then
      some (.invalidHost [c])
    else unescapeCheck mode [d]
  | c :: d :: e :: rest =>
    if c = ch '%' then
      if !ishex d || !ishex e then some (.escapeError [c, d, e])
      else if mode = .encodeHost ∧ unhex d < 8 ∧ [c, d, e] ≠ utf8 "%25" then
        some (.escapeError [c, d, e])
      else if mode = .encodeZone ∧ [c, d, e] ≠ utf8 "%25" ∧
          (unhex d <<< 4 ||| unhex e) ≠ ch ' ' ∧
          shouldEscape (unhex d <<< 4 ||| unhex e) .encodeHost then
        some (.escapeError [c, d, e])
      else unescapeCheck mode rest
    else if (mode = .encodeHost ∨ mode = .encodeZone) ∧ c < 0x80 ∧ shouldEscape c .encodeHost then
      some (.invalidHost [c])
    else unescapeCheck mode (d :: e :: rest)

/-- The second pass of Go `unescape`: replace each `%XX` by its byte (and,
in query components, `+` by a space). -/
def unescapeBuild (mode : Encoding) : Bytes → Bytes
  | [] => []
  | [c] => if c = ch '+' ∧ mode = .encodeQueryComponent then [ch ' '] else [c]
  | [c, d] =>
    (if c = ch '+' ∧ mode = .encodeQueryComponent then ch ' ' else c) :: unescapeBuild mode [d]
  | c :: d :: e :: rest =>
    if c = ch '%' then (unhex d <<< 4 ||| unhex e) :: unescapeBuild mode rest
    else
      (if c = ch '+' ∧ mode = .encodeQueryComponent then ch ' ' else c) ::
        unescapeBuild mode (d :: e :: rest)

/-- Go `unescape`.  (When nothing needs decoding Go returns its argument
unchanged, which is what the second pass computes in that case.) -/
def unescape (s : Bytes) (mode : Encoding) : Except ParseErr Bytes :=
  match unescapeCheck mode s with
  | some e => .error e
  | none => .ok (unescapeBuild mode s)

/-- The digit at position `n` of Go's `upperhex` table. -/
def upperhex (n : UInt8) : UInt8 :=
  (utf8 "0123456789ABCDEF").getD n.toNat 0

/-- Go `escape`.  (When no byte needs escaping Go returns its argument
unchanged, which is what this computes in that case.) -/
def escape (s : Bytes) (mode : Encoding) : Bytes :=
  s.flatMap fun c =>
    if shouldEscape c mode then
      if c = ch ' ' ∧ mode = .encodeQueryComponent then [ch '+']
      else [ch '%', upperhex (c >>> 4), upperhex (c &&& 15)]
    else [c]

/-- Go `validEncoded`. -/
def validEncoded (s : Bytes) (mode : Encoding) : Bool :=
  s.all fun c =>
    if c ∈ utf8 "!$&'()*+,;=:@" then true
    else if c ∈ utf8 "[]" then true
    else if c = ch '%' then true
    else !shouldEscape c mode

/-- Go `stringContainsCTLByte`. -/
def stringContainsCTLByte (s : Bytes) : Bool :=
  s.any fun b => b < ch ' ' || b = 0x7f

/-- The scan of Go `getScheme` from index `i` on; `seen` is `rawURL[:i]` and
the list is `rawURL[i:]`.  Returns scheme and remainder, or the error
"missing protocol scheme". -/
def getSchemeFrom (rawURL : Bytes) (seen : Bytes) : Bytes → Except ParseErr (Bytes × Bytes)
  | [] => .ok ([], rawURL)
  | c :: rest =>
    if (ch 'a' ≤ c ∧ c ≤ ch 'z') ∨ (ch 'A' ≤ c ∧ c ≤ ch 'Z') then
      getSchemeFrom rawURL (seen ++ [c]) rest
    else if (ch '0' ≤ c ∧ c ≤ ch '9') ∨ c = ch '+' ∨ c = ch '-' ∨ c = ch '.' then
      if seen = [] then .ok ([], rawURL) else getSchemeFrom rawURL (seen ++ [c]) rest
    else if c = ch ':' then
      if seen = [] then .error .missingScheme else .ok (seen, rest)
    else .ok ([], rawURL)

/-- Go `getScheme`. -/
def getScheme (rawURL : Bytes) : Except ParseErr (Bytes × Bytes) :=
  getSchemeFrom rawURL [] rawURL

/-- ASCII lower-casing, Go `strings.ToLower` on the ASCII text of a scheme. -/
def toLower (s : Bytes) : Bytes :=
  s.map fun c => if ch 'A' ≤ c ∧ c ≤ ch 'Z' then c + 32 else c

/-- Go `validOptionalPort`. -/
def validOptionalPort (port : Bytes) : Bool :=
  match port with
  | [] => true
  | c :: rest => c = ch ':' && rest.all fun b => !(b < ch '0' || b > ch '9')

/-- Go `validUserinfo`. -/
def validUserinfo (s : Bytes) : Bool :=
  s.all fun r =>
    (ch 'A' ≤ r && r ≤ ch 'Z') || (ch 'a' ≤ r && r ≤ ch 'z') || (ch '0' ≤ r && r ≤ ch '9') ||
      decide (r ∈ utf8 "-._:~!$&'()*+,;=%@")

/-- Go `strings.LastIndex` for a one-byte separator. -/
def lastIndex (sep : UInt8) (s : Bytes) : Option Nat :=
  match s.reverse.indexOf? sep with
  | some i => some (s.length - 1 - i)
  | none => none

/-- Go `strings.Index`: the first position at which `sub` occurs in the list. -/
def index (sub : Bytes) : Bytes → Option Nat
  | [] => if sub = [] then some 0 else none
  | c :: rest =>
    if sub.isPrefixOf (c :: rest) then some 0
    else (index sub rest).map (· + 1)

/-- Go `parseHost`. -/
def parseHost (host : Bytes) : Except ParseErr Bytes :=
  if host.head? = some (ch '[') then
    match lastIndex (ch ']') host with
    | none => .error .missingBracket
    | some i =>
      let colonPort := host.drop (i + 1)
      if !validOptionalPort colonPort then .error (.invalidPort colonPort)
      else
        match index (utf8 "%25") (host.take i) with
        | some zone =>
          match unescape (host.take zone) .encodeHost with
          | .error e => .error e
          | .ok host1 =>
            match unescape ((host.take i).drop zone) .encodeZone with
            | .error e => .error e
            | .ok host2 =>
              match unescape (host.drop i) .encodeHost with
              | .error e => .error e
              | .ok host3 => .ok (host1 ++ host2 ++ host3)
        | none => unescape host .encodeHost
  else
    match lastIndex (ch ':') host with
    | some i =>
      let colonPort := host.drop i
      if !validOptionalPort colonPort then .error (.invalidPort colonPort)
      else unescape host .encodeHost
    | none => unescape host .encodeHost

/-- Go `parseAuthority`. -/
def parseAuthority (authority : Bytes) : Except ParseErr (Option Userinfo × Bytes) :=
  match lastIndex (ch '@') authority with
  | none =>
    match parseHost authority with
    | .error e => .error e
    | .ok host => .ok (none, host)
  | some i =>
    match parseHost (authority.drop (i + 1)) with
    | .error e => .error e
    | .ok host =>
      let userinfo := authority.take i
      if !validUserinfo userinfo then .error .invalidUserinfo
      else if ch ':' ∉ userinfo then
        match unescape userinfo .encodeUserPassword with
        | .error e => .error e
        | .ok u => .ok (some ⟨u, [], false⟩, host)
      else
        let c := cut (ch ':') userinfo
        match unescape c.1 .encodeUserPassword with
        | .error e => .error e
        | .ok username =>
          match unescape c.2.1 .encodeUserPassword with
          | .error e => .error e
          | .ok password => .ok (some ⟨username, password, true⟩, host)

/-- Go `(*URL).setPath`. -/
def setPath (u : URL) (p : Bytes) : Except ParseErr URL :=
  match unescape p .encodePath with
  | .error e => .error e
  | .ok path =>
    .ok { u with Path := path, RawPath := if p = escape path .encodePath then [] else p }

/-- Go `(*URL).setFragment`. -/
def setFragment (u : URL) (f : Bytes) : Except ParseErr URL :=
  match unescape f .encodeFragment with
  | .error e => .error e
  | .ok frag =>
    .ok { u with Fragment := frag,
                 RawFragment := if f = escape frag .encodeFragment then [] else f }

/-- Go `parse(rawURL, viaRequest = false)`: a URL without its fragment. -/
def parseNoFragment (rawURL : Bytes) : Except ParseErr URL :=
  if stringContainsCTLByte rawURL then .error .controlCharacter
  else if rawURL = utf8 "*" then .ok { Path := utf8 "*" }
  else
    match getScheme rawURL with
    | .error e => .error e
    | .ok (scheme, rest0) =>
      let url : URL := { Scheme := toLower scheme }
      let forceQuery := rest0.getLast? = some (ch '?') ∧ rest0.count (ch '?') = 1
      let rest := if forceQuery then rest0.dropLast else (cut (ch '?') rest0).1
      let url : URL :=
        if forceQuery then { url with ForceQuery := true }
        else { url with RawQuery := (cut (ch '?') rest0).2.1 }
      if rest.head? ≠ some (ch '/') ∧ url.Scheme ≠ [] then
        -- rootless paths are opaque
        .ok { url with Opaque := rest }
      else if rest.head? ≠ some (ch '/') ∧ ch ':' ∈ (cut (ch '/') rest).1 then
        .error .colonInFirstSegment
      else if (url.Scheme ≠ [] ∨ ¬ (utf8 "///").isPrefixOf rest) ∧ (utf8 "//").isPrefixOf rest then
        let authority0 := rest.drop 2
        let authority := (cut (ch '/') authority0).1
        let rest1 := authority0.drop authority.length
        match parseAuthority authority with
        | .error e => .error e
        | .ok (user, host) => setPath { url with User := user, Host := host } rest1
      else if url.Scheme ≠ [] ∧ rest.head? = some (ch '/') then
        setPath { url with OmitHost := true } rest
      else setPath url rest

/-- Go `url.Parse`. -/
def Parse (rawURL : Bytes) : Except Error URL :=
  let c := cut (ch '#') rawURL
  match parseNoFragment c.1 with
  | .error e => .error ⟨"parse", c.1, e⟩
  | .ok url =>
    if c.2.1 = [] then .ok url
    else
      match setFragment url c.2.1 with
      | .error e => .error ⟨"parse", rawURL, e⟩
      | .ok url => .ok url

/-- Whether `unescape raw mode` succeeds with result `p`. -/
def unescapesTo (raw : Bytes) (mode : Encoding) (p : Bytes) : Bool :=
  match unescape raw mode with
  | .ok q => q = p
  | .error _ => false

/-- Go `(*URL).EscapedPath`. -/
def URL.EscapedPath (u : URL) : Bytes :=
  if u.RawPath ≠ [] ∧ validEncoded u.RawPath .encodePath ∧
      unescapesTo u.RawPath .encodePath u.Path then u.RawPath
  else if u.Path = utf8 "*" then utf8 "*"
  else escape u.Path .encodePath

/-- Go `(*URL).EscapedFragment`. -/
def URL.EscapedFragment (u : URL) : Bytes :=
  if u.RawFragment ≠ [] ∧ validEncoded u.RawFragment .encodeFragment ∧
      unescapesTo u.RawFragment .encodeFragment u.Fragment then u.RawFragment
  else escape u.Fragment .encodeFragment

/-- Go `(*Userinfo).String`. -/
def Userinfo.String (u : Userinfo) : Bytes :=
  escape u.username .encodeUserPassword ++
    (if u.passwordSet then ch ':' :: escape u.password .encodeUserPassword else [])

/-- Go `(*URL).String`. -/
def URL.String (u : URL) : Bytes :=
  let scheme := if u.Scheme ≠ [] then u.Scheme ++ [ch ':'] else []
  let body :=
    if u.Opaque ≠ [] then scheme ++ u.Opaque
    else
      let auth :=
        if u.Scheme ≠ [] ∨ u.Host ≠ [] ∨ u.User.isSome then
          if u.OmitHost ∧ u.Host = [] ∧ u.User.isNone then []
          else
            (if u.Host ≠ [] ∨ u.Path ≠ [] ∨ u.User.isSome then utf8 "//" else []) ++
            (match u.User with
              | some ui => ui.String ++ [ch '@']
              | none => []) ++
            (if u.Host ≠ [] then escape u.Host .encodeHost else [])
        else []
      let path := u.EscapedPath
      let buf := scheme ++ auth ++
        (if path ≠ [] ∧ path.head? ≠ some (ch '/') ∧ u.Host ≠ [] then [ch '/'] else [])
      let buf := buf ++
        (if buf = [] ∧ ch ':' ∈ (cut (ch '/') path).1 then utf8 "./" else [])
      buf ++ path
  body ++
    (if u.ForceQuery ∨ u.RawQuery ≠ [] then ch '?' :: u.RawQuery else []) ++
    (if u.Fragment ≠ [] then ch '#' :: u.EscapedFragment else [])

/-- The unreserved bytes of RFC 3986: letters, digits and `-`, `_`, `.`, `~`. -/
def unreserved (c : UInt8) : Prop :=
  (ch 'a' ≤ c ∧ c ≤ ch 'z') ∨ (ch 'A' ≤ c ∧ c ≤ ch 'Z') ∨ (ch '0' ≤ c ∧ c ≤ ch '9') ∨
    c ∈ utf8 "-_.~"

instance (c : UInt8) : Decidable (unreserved c) := by
  unfold unreserved; infer_instance

/-- A URL of the plain form `scheme://host[:port]/path`: a scheme, a host of
unreserved bytes and colons, no opaque part, user, query or fragment, and a
path in the encoding Go writes. -/
def URL.isPlain (u : URL) : Prop :=
  u.Scheme ≠ [] ∧ u.Opaque = [] ∧ u.User = none ∧ u.Host ≠ [] ∧
    (∀ c ∈ u.Host, unreserved c ∨ c = ch ':') ∧ u.RawPath = [] ∧
    u.ForceQuery = false ∧ u.RawQuery = [] ∧ u.Fragment = []

instance (u : URL) : Decidable u.isPlain := by
  unfold URL.isPlain; infer_instance

end GoUrl

/-! ## Effects of a run

A run of the program is observed through what it writes, which operations of
the resource clients it invokes, which requests it hands to the HTTP helper,
and how it ends. -/

/-- A JSON value of the kinds `RequestBodyDataset` holds. -/
inductive JsonValue
  | string (s : String)
  | strings (xs : List String)
  deriving DecidableEq, Repr

/-- A JSON object: its fields in order.  The body of a request is kept as
the JSON document it denotes; the byte rendering chosen by `encoding/json`
is not modelled. -/
structure JsonObject where
  fields : List (String × JsonValue)
  deriving DecidableEq, Repr

/-- A call of the HTTP helper (`helpers.PostRequest`). -/
structure Request where
  method : String
  url : Bytes
  token : String
  body : Option JsonObject
  deriving DecidableEq, Repr

/-- An operation of a resource client, with the arguments of the call as
written in `main.go`. -/
inductive ClientCall
  | userList (apiURI token : String)
  | fileList (apiURI token username : String)
  | fileIngest (apiURI token username filepath : String)
  | fileSetAccession (apiURI token username filepath accessionID : String)
  | datasetCreate (apiURI token datasetID : String) (accessionIDs : List String)
  | datasetRelease (apiURI token datasetID : String)
  deriving DecidableEq, Repr

/-- One observable step of a run. -/
inductive Event
  /-- a write to standard output -/
  | stdout (s : String)
  /-- a write to standard error -/
  | stderr (s : String)
  /-- a resource-client operation is invoked -/
  | call (c : ClientCall)
  /-- the HTTP helper is invoked -/
  | request (r : Request)
  deriving DecidableEq, Repr

/-- How a piece of code ends: it returns a value, the process exits with a
status (`os.Exit`), or it panics. -/
inductive Status (α : Type)
  | ret (a : α)
  | exit (code : Nat)
  | panic
  deriving DecidableEq, Repr

/-- A run: the events in order and the way it ended. -/
structure Run (α : Type) where
  trace : List Event
  status : Status α
  deriving DecidableEq, Repr

namespace Run

def pure {α : Type} (a : α) : Run α := ⟨[], .ret a⟩

def bind {α β : Type} (m : Run α) (f : α → Run β) : Run β :=
  match m.status with
  | .ret a => ⟨m.trace ++ (f a).trace, (f a).status⟩
  | .exit code => ⟨m.trace, .exit code⟩
  | .panic => ⟨m.trace, .panic⟩

instance : Monad Run where
  pure := Run.pure
  bind := Run.bind

/-- Record one event. -/
def emit (e : Event) : Run Unit := ⟨[e], .ret ()⟩

/-- Go `os.Exit`. -/
def exit {α : Type} (code : Nat) : Run α := ⟨[], .exit code⟩

/-- A run-time panic. -/
def panic {α : Type} : Run α := ⟨[], .panic⟩

/-- The requests handed to the HTTP helper during the run. -/
def requests {α : Type} (r : Run α) : List Request :=
  r.trace.filterMap fun e => match e with
    | .request q => some q
    | _ => none

/-- The resource-client operations invoked during the run. -/
def calls {α : Type} (r : Run α) : List ClientCall :=
  r.trace.filterMap fun e => match e with
    | .call c => some c
    | _ => none

end Run

/-- Go `s[i:]` on a slice: panics when `i` exceeds the length. -/
def sliceFrom {α : Type} (xs : List α) (i : Nat) : Run (List α) :=
  if i ≤ xs.length then Run.pure (xs.drop i) else Run.panic

/-! ## Package `flag` -/

namespace GoFlag

/-- A string-valued flag defined with `StringVar`, default value `""`. -/
structure Flag where
  name : String
  usage : String
  deriving DecidableEq, Repr

/-- Go `flag.FlagSet` with error handling `ExitOnError`. -/
structure FlagSet where
  name : String
  formal : List Flag
  deriving DecidableEq, Repr

/-- The values assigned to flag variables, latest assignment first. -/
abbrev Values := List (String × String)

/-- The value of the variable bound to flag `name`; `""` unless set. -/
def Values.get (vs : Values) (name : String) : String :=
  match vs.find? (fun p => p.1 = name) with
  | some p => p.2
  | none => ""

/-- How `Parse` ends before error handling is applied. -/
inductive Parsed
  /-- parsing stopped at the first non-flag argument (or after `--`) -/
  | ok (values : Values) (args : List String)
  /-- `failf`: an error message was produced -/
  | fail (msg : String)
  /-- `ErrHelp`: `-h` or `-help` was given and is not a defined flag -/
  | help
  deriving DecidableEq, Repr

/-- One argument as `parseOne` reads it. -/
inductive ArgKind
  /-- not a flag: fewer than two bytes or no leading `-` -/
  | nonFlag
  /-- `--`, which ends the flags -/
  | terminator
  /-- "bad flag syntax" -/
  | bad
  /-- `-name`, `--name`, `-name=value` or `--name=value` -/
  | flag (name : String) (value : Option String)
  deriving DecidableEq, Repr

/-- Split `name` at the first `=` that is not its first character. -/
def splitValue (name : List Char) : ArgKind :=
  match name with
  | [] => .bad
  | c :: rest =>
    if c = '-' ∨ c = '=' then .bad
    else
      let r := cut '=' rest
      if r.2.2 then .flag (String.mk (c :: r.1)) (some (String.mk r.2.1))
      else .flag (String.mk name) none

/-- The first part of `parseOne`: classify the argument `s`. -/
def classify (s : String) : ArgKind :=
  match s.toList with
  | '-' :: '-' :: [] => .terminator
  | '-' :: '-' :: name => splitValue name
  | '-' :: c :: name => splitValue (c :: name)
  | _ => .nonFlag

/-- The loop of `FlagSet.Parse` over `parseOne`.  All flags of this program
are string flags, which take a value: the text after `=`, else the next
argument. -/
def parseArgs (formal : List Flag) : List String → Values → Parsed
  | [], vals => .ok vals []
  | [s], vals =>
    match classify s with
    | .nonFlag => .ok vals [s]
    | .terminator => .ok vals []
    | .bad => .fail ("bad flag syntax: " ++ s)
    | .flag name value =>
      if formal.any (fun f => f.name = name) then
        match value with
        | some v => .ok ((name, v) :: vals) []
        | none => .fail ("flag needs an argument: -" ++ name)
      else if name = "help" ∨ name = "h" then .help
      else .fail ("flag provided but not defined: -" ++ name)
  | s :: t :: rest, vals =>
    match classify s with
    | .nonFlag => .ok vals (s :: t :: rest)
    | .terminator => .ok vals (t :: rest)
    | .bad => .fail ("bad flag syntax: " ++ s)
    | .flag name value =>
      if formal.any (fun f => f.name = name) then
        match value with
        | some v => parseArgs formal (t :: rest) ((name, v) :: vals)
        | none => parseArgs formal rest ((name, t) :: vals)
      else if name = "help" ∨ name = "h" then .help
      else .fail ("flag provided but not defined: -" ++ name)

/-- Go `PrintDefaults` for string flags with an empty default whose
description has no back-quoted name: one entry per flag, sorted by name. -/
def printDefaults (fs : FlagSet) : List Event :=
  (fs.formal.insertionSort (fun a b => a.name ≤ b.name)).map fun f =>
    .stderr ("  -" ++ f.name ++ " string" ++ "\n    \t" ++ f.usage ++ "\n")

/-- Go `defaultUsage`, the usage function of a flag set made by
`NewFlagSet`. -/
def defaultUsage (fs : FlagSet) : Run Unit :=
  ⟨.stderr (if fs.name = "" then "Usage:\n" else "Usage of " ++ fs.name ++ ":\n") ::
    printDefaults fs, .ret ()⟩

/-- Go `FlagSet.Parse` under `ExitOnError`.  A failure writes the message
and the usage and exits with status 2; an undefined `-h`/`-help` writes the
usage and exits with status 0.  `usage` is the flag set's usage function. -/
def FlagSet.Parse (fs : FlagSet) (usage : Run Unit) (arguments : List String) :
    Run (Values × List String) :=
  match parseArgs fs.formal arguments [] with
  | .ok vals args => Run.pure (vals, args)
  | .fail msg => do
    Run.emit (.stderr (msg ++ "\n"))
    usage
    Run.exit 2
  | .help => do
    usage
    Run.exit 0

end GoFlag

/-! ## What the program takes from outside

The packages `helpers`, `user` and `file` of the repository, `strconv.Quote`
and the environment are not part of the embedded source; their results are
parameters of the model. -/

/-- The collaborators of `main.go` and `dataset.go`.  An error is given by its
message (`err.Error()`); `none` stands for a nil error. -/
structure Deps where
  /-- `helpers.CheckTokenExpiration(token)` -/
  CheckTokenExpiration : String → Option String
  /-- `helpers.CheckValidChars(filepath)` -/
  CheckValidChars : String → Option String
  /-- `helpers.PostRequest(url, token, jsonBody)`: the response body or an error -/
  PostRequest : Bytes → String → Option JsonObject → Except String Bytes
  /-- the error returned by `user.List(apiURI, token)` -/
  userList : String → String → Option String
  /-- the error returned by `file.List(apiURI, token, username)` -/
  fileList : String → String → String → Option String
  /-- the error returned by `file.Ingest(apiURI, token, username, filepath)` -/
  fileIngest : String → String → String → String → Option String
  /-- the error returned by `file.SetAccession(apiURI, token, username, filepath, accessionID)` -/
  fileSetAccession : String → String → String → String → String → Option String
  /-- `strconv.Quote`, used in the message of a `url.Error` -/
  quote : Bytes → String
  /-- `os.Getenv` -/
  getenv : String → String
  /-- The `username` argument of `dataset.Create`.  The function in
  `dataset.go` takes five arguments, the call in `main.go` passes four
  (`apiURI, token, datasetID, accessionIDs`) and names no user; the value
  that reaches `Create` is left open here. -/
  createUsername : String

set_option linter.dupNamespace false

/-- The text of a `ParseErr`, as `err.Error()` gives it. -/
def GoUrl.ParseErr.Error (quote : Bytes → String) : GoUrl.ParseErr → String
  | .controlCharacter => "net/url: invalid control character in URL"
  | .missingScheme => "missing protocol scheme"
  | .colonInFirstSegment => "first path segment in URL cannot contain colon"
  | .escapeError s => "invalid URL escape " ++ quote s
  | .invalidHost s => "invalid character " ++ quote s ++ " in host name"
  | .missingBracket => "missing ']' in host"
  | .invalidPort s => "invalid port " ++ quote s ++ " after host"
  | .invalidUserinfo => "net/url: invalid userinfo"

/-- Go `(*url.Error).Error`. -/
def GoUrl.Error.Error (quote : Bytes → String) (e : GoUrl.Error) : String :=
  e.Op ++ " " ++ quote e.URL ++ ": " ++ e.Err.Error quote

/-! ## Package `dataset` (`sda-admin/dataset/dataset.go`) -/

namespace Dataset

/-- The struct `RequestBodyDataset`. -/
structure RequestBodyDataset where
  AccessionIDs : List String
  DatasetID : String
  User : String
  deriving DecidableEq, Repr

/-- The JSON document `json.Marshal` produces for a `RequestBodyDataset`:
one field per struct field, named by its `json` tag, in declaration order.
(Marshalling strings and string slices cannot fail.) -/
def jsonMarshal (b : RequestBodyDataset) : JsonObject :=
  ⟨[("accession_ids", .strings b.AccessionIDs),
    ("dataset_id", .string b.DatasetID),
    ("user", .string b.User)]⟩

/-- The call `helpers.PostRequest(url, token, body)`: the request is
recorded, the error (if any) is returned. -/
def postRequest (deps : Deps) (url : Bytes) (token : String) (body : Option JsonObject) :
    Run (Option String) :=
  ⟨[.request ⟨"POST", url, token, body⟩],
    .ret (match deps.PostRequest url token body with
      | .ok _ => none
      | .error e => some e)⟩

/-- The URL `Create` posts to: `apiURI` parsed, with `dataset/create` joined
to its path. -/
def createURL (apiURI : String) : Except GoUrl.Error GoUrl.URL :=
  match GoUrl.Parse (utf8 apiURI) with
  | .error e => .error e
  | .ok parsedURL =>
    .ok { parsedURL with Path := GoPath.Join [parsedURL.Path, utf8 "dataset/create"] }

/-- The function `Create`: creates a dataset from a list of accession IDs and a dataset
ID. -/
def Create (deps : Deps) (apiURI token datasetID username : String)
    (accessionIDs : List String) : Run (Option String) :=
  match createURL apiURI with
  | .error e => Run.pure (some (e.Error deps.quote))
  | .ok parsedURL =>
    let requestBody : RequestBodyDataset :=
      { AccessionIDs := accessionIDs, DatasetID := datasetID, User := username }
    let jsonBody := jsonMarshal requestBody
    postRequest deps parsedURL.String token (some jsonBody)

/-- The URL `Release` posts to: `apiURI` parsed, with `dataset/release`
joined to its path and `/` and the dataset ID appended. -/
def releaseURL (apiURI datasetID : String) : Except GoUrl.Error GoUrl.URL :=
  match GoUrl.Parse (utf8 apiURI) with
  | .error e => .error e
  | .ok parsedURL =>
    .ok { parsedURL with
      Path := GoPath.Join [parsedURL.Path, utf8 "dataset/release"] ++ utf8 "/" ++ utf8 datasetID }

/-- The function `Release`: releases a dataset for downloading. -/
def Release (deps : Deps) (apiURI token datasetID : String) : Run (Option String) :=
  match releaseURL apiURI datasetID with
  | .error e => Run.pure (some (e.Error deps.quote))
  | .ok parsedURL => postRequest deps parsedURL.String token none

end Dataset

/-! ## Package `main` (`sda-admin/main.go`) -/

namespace Main

open GoFlag

def version : String := "1.0.0"

def usage : String :=
  "\n" ++
  "Usage:\n" ++
  "  sda-admin [-uri URI] [-token TOKEN] <command> [options]\n" ++
  "\n" ++
  "Commands:\n" ++
  "  user list                     List all users.\n" ++
  "  file list -user USERNAME      List all files for a specified user.\n" ++
  "  file ingest -filepath FILEPATH -user USERNAME\n" ++
  "                                Trigger ingestion of a given file.\n" ++
  "  file set-accession -filepath FILEPATH -user USERNAME -accession-id accessionID\n" ++
  "                                Assign accession ID to a file.\n" ++
  "  dataset create -dataset-id DATASET_ID accessionID [accessionID ...]\n" ++
  "                                Create a dataset from a list of accession IDs and a dataset ID.\n" ++
  "  dataset release -dataset-id DATASET_ID\n" ++
  "                                Release a dataset for downloading.\n" ++
  "  \n" ++
  "Global Options:\n" ++
  "  -uri URI         Set the URI for the API server (optional if API_HOST is set).\n" ++
  "  -token TOKEN     Set the authentication token (optional if ACCESS_TOKEN is set).\n" ++
  "\n" ++
  "Additional Commands:\n" ++
  "  help             Show this help message.\n" ++
  "  -h, -help        Show this help message.\n"

def userUsage : String :=
  "\n" ++
  "List Users:\n" ++
  "  Usage: sda-admin user list \n" ++
  "    List all users in the system.\n"

def userListUsage : String :=
  "\n" ++
  "Usage: sda-admin user list \n" ++
  "  List all users in the system.\n"

def fileUsage : String :=
  "\n" ++
  "List all files for a user:\n" ++
  "  Usage: sda-admin file list -user USERNAME\n" ++
  "\tList all files for a specified user.\n" ++
  "\n" ++
  "Ingest a file:\n" ++
  "  Usage: sda-admin file ingest -filepath FILEPATH -user USERNAME\n" ++
  "    Trigger the ingestion of a given file for a specific user.\n" ++
  "\n" ++
  "Set accession ID to a file:\n" ++
  "  Usage: sda-admin file set-accession -filepath FILEPATH -user USERNAME -accession-id ACCESSION_ID\n" ++
  "    Assign an accession ID to a file for a given user.\n" ++
  "\n" ++
  "Options:\n" ++
  "  -user USERNAME       Specify the username associated with the file.\n" ++
  "  -filepath FILEPATH   Specify the path of the file to ingest.\n" ++
  "  -accession-id ID     Specify the accession ID to assign to the file.\n" ++
  "\n" ++
  "Use 'sda-admin help file <command>' for information on a specific command.\n"

def fileListUsage : String :=
  "\n" ++
  "Usage: sda-admin file list -user USERNAME\n" ++
  "  List all files for a specified user.\n" ++
  "\n" ++
  "Options:\n" ++
  "  -user USERNAME \tSpecify the username associated with the files.\n"

def fileIngestUsage : String :=
  "\n" ++
  "Usage: sda-admin file ingest -filepath FILEPATH -user USERNAME\n" ++
  "  Trigger the ingestion of a given file for a specific user.\n" ++
  "\n" ++
  "Options:\n" ++
  "  -filepath FILEPATH   Specify the path of the file to ingest.\n" ++
  "  -user USERNAME       Specify the username associated with the file.\n"

def fileAccessionUsage : String :=
  "\n" ++
  "Usage: sda-admin file set-accession -filepath FILEPATH -user USERNAME -accession-id ACCESSION_ID\n" ++
  "  Assign accession ID to a file and associate it with a user.\n" ++
  "\n" ++
  "Options:\n" ++
  "  -filepath FILEPATH   Specify the path of the file to assign the accession ID.\n" ++
  "  -user USERNAME       Specify the username associated with the file.\n" ++
  "  -accession-id ID     Specify the accession ID to assign to the file.\n"

def datasetUsage : String :=
  "\n" ++
  "Create a dataset:\n" ++
  "  Usage: sda-admin dataset create -dataset-id DATASET_ID [ACCESSION_ID ...]\n" ++
  "    Create a dataset from a list of accession IDs and a dataset ID.\n" ++
  "    \n" ++
  "Release a dataset:\n" ++
  "  Usage: sda-admin dataset release -dataset-id DATASET_ID\n" ++
  "    Release a dataset for downloading based on its dataset ID.\n" ++
  "\n" ++
  "Options:\n" ++
  "  -dataset-id DATASET_ID   Specify the unique identifier for the dataset.\n" ++
  "  [ACCESSION_ID ...]       (For dataset create) Specify one or more accession IDs to include in the dataset.\n" ++
  "\n" ++
  "Use 'sda-admin help dataset <command>' for information on a specific command.\n"

def datasetCreateUsage : String :=
  "\n" ++
  "Usage: sda-admin dataset create -dataset-id DATASET_ID [ACCESSION_ID ...]\n" ++
  "  Create a dataset from a list of accession IDs and a dataset ID.\n" ++
  "\n" ++
  "Options:\n" ++
  "  -dataset-id DATASET_ID    Specify the unique identifier for the dataset.\n" ++
  "  [ACCESSION_ID ...]         (For dataset create) Specify one or more accession IDs to include in the dataset.\n"

def datasetReleaseUsage : String :=
  "\n" ++
  "Usage: sda-admin dataset release -dataset-id DATASET_ID\n" ++
  "  Release a dataset for downloading based on its dataset ID.\n" ++
  "\n" ++
  "Options:\n" ++
  "  -dataset-id DATASET_ID    Specify the unique identifier for the dataset.\n"

def versionUsage : String :=
  "\n" ++
  "Usage: sda-admin version\n" ++
  "  Show the version information for sda-admin.\n"

/-- The package-level variables `apiURI` and `token`, and the arguments left
by `flag.Parse` (`flag.Args()`). -/
structure Globals where
  apiURI : String
  token : String
  args : List String
  deriving DecidableEq, Repr

/-- Go `flag.NArg()`. -/
def Globals.NArg (g : Globals) : Nat := g.args.length

/-- Go `flag.Arg(i)`: the empty string when there is no such argument. -/
def Globals.Arg (g : Globals) (i : Nat) : String := g.args.getD i ""

/-- The function `printVersion`. -/
def printVersion : Run Unit :=
  Run.emit (.stdout ("sda-admin version " ++ version ++ "\n"))

/-- The function `checkToken`. -/
def checkToken (deps : Deps) (token : String) : Option String :=
  match deps.CheckTokenExpiration token with
  | some err => some err
  | none => none

/-- The command-line flag set with the flags `parseFlagsAndEnv` registers. -/
def commandLine : FlagSet :=
  ⟨"sda-admin",
    [⟨"uri", "Set the URI for the SDA server (optional if API_HOST is set)"⟩,
     ⟨"token", "Set the authentication token (optional if ACCESS_TOKEN is set)"⟩]⟩

/-- The function `parseFlagsAndEnv`.  Returns the error together with the
globals as the function leaves them. -/
def parseFlagsAndEnv (deps : Deps) (argv : List String) : Run (Option String × Globals) := do
  -- flag.Usage prints the usage text with fmt.Println
  let p ← commandLine.Parse (Run.emit (.stdout (usage ++ "\n"))) argv
  let g : Globals := { apiURI := p.1.get "uri", token := p.1.get "token", args := p.2 }
  -- If no command is provided, show usage
  if g.NArg = 0 then
    pure (some usage, g)
  else if g.Arg 0 ≠ "help" then
    let g1 : Globals := if g.apiURI = "" then { g with apiURI := deps.getenv "API_HOST" } else g
    if g1.apiURI = "" then
      pure (some "error: either -uri must be provided or API_HOST environment variable must be set.", g1)
    else
      let g2 : Globals :=
        if g1.token = "" then { g1 with token := deps.getenv "ACCESS_TOKEN" } else g1
      if g2.token = "" then
        pure (some "error: either -token must be provided or ACCESS_TOKEN environment variable must be set.", g2)
      else pure (none, g2)
  else pure (none, g)

/-- The function `handleHelpUser`. -/
def handleHelpUser (g : Globals) : Run (Option String) :=
  if g.NArg = 2 then do
    Run.emit (.stderr userUsage)
    pure none
  else if g.NArg > 2 ∧ g.Arg 2 = "list" then do
    Run.emit (.stderr userListUsage)
    pure none
  else
    pure (some ("Unknown subcommand '" ++ g.Arg 2 ++ "' for '" ++ g.Arg 1 ++ "'.\n" ++ userUsage))

/-- The function `handleHelpFile`. -/
def handleHelpFile (g : Globals) : Run (Option String) :=
  if g.NArg = 2 then do
    Run.emit (.stderr fileUsage)
    pure none
  else if g.NArg > 2 ∧ g.Arg 2 = "list" then do
    Run.emit (.stderr fileListUsage)
    pure none
  else if g.NArg > 2 ∧ g.Arg 2 = "ingest" then do
    Run.emit (.stderr fileIngestUsage)
    pure none
  else if g.NArg > 2 ∧ g.Arg 2 = "set-accession" then do
    Run.emit (.stderr fileAccessionUsage)
    pure none
  else
    pure (some ("Unknown subcommand '" ++ g.Arg 2 ++ "' for '" ++ g.Arg 1 ++ "'.\n" ++ fileUsage))

/-- The function `handleHelpDataset`. -/
def handleHelpDataset (g : Globals) : Run (Option String) :=
  if g.NArg = 2 then do
    Run.emit (.stderr datasetUsage)
    pure none
  else if g.NArg > 2 ∧ g.Arg 2 = "create" then do
    Run.emit (.stderr datasetCreateUsage)
    pure none
  else if g.NArg > 2 ∧ g.Arg 2 = "release" then do
    Run.emit (.stderr datasetReleaseUsage)
    pure none
  else
    pure (some ("Unknown subcommand '" ++ g.Arg 2 ++ "' for '" ++ g.Arg 1 ++ "'.\n" ++ datasetUsage))

/-- The function `handleHelpCommand`. -/
def handleHelpCommand (g : Globals) : Run (Option String) :=
  if g.NArg > 1 then
    if g.Arg 1 = "user" then handleHelpUser g
    else if g.Arg 1 = "file" then handleHelpFile g
    else if g.Arg 1 = "dataset" then handleHelpDataset g
    else if g.Arg 1 = "version" then do
      Run.emit (.stderr versionUsage)
      pure none
    else pure (some ("Unknown command '" ++ g.Arg 1 ++ "'.\n" ++ usage))
  else do
    Run.emit (.stderr usage)
    pure none

/-- The function `handleUserCommand`. -/
def handleUserCommand (deps : Deps) (g : Globals) : Run (Option String) :=
  if g.NArg < 2 then
    pure (some ("Error: 'user' requires a subcommand (list).\n" ++ userUsage))
  else if g.Arg 1 = "list" then
    match deps.CheckTokenExpiration g.token with
    | some err => pure (some err)
    | none => do
      Run.emit (.call (.userList g.apiURI g.token))
      match deps.userList g.apiURI g.token with
      | some err => pure (some ("Error: failed to get users, reason: " ++ err ++ "\n"))
      | none => pure none
  else
    pure (some ("Unknown subcommand '" ++ g.Arg 1 ++ "' for '" ++ g.Arg 0 ++ "'.\n" ++ userUsage))

/-- The flag set `listFilesCmd`. -/
def listFilesCmd : FlagSet := ⟨"list", [⟨"user", "Filter files by username"⟩]⟩

/-- The function `handleFileListCommand`. -/
def handleFileListCommand (deps : Deps) (g : Globals) : Run (Option String) := do
  let rest ← sliceFrom g.args 2
  let p ← listFilesCmd.Parse (defaultUsage listFilesCmd) rest
  let username := p.1.get "user"
  -- Check if the -user flag was provided
  if username = "" then
    pure (some ("Error: the -user flag is required.\n" ++ fileListUsage))
  else
    match deps.CheckTokenExpiration g.token with
    | some err => pure (some err)
    | none => do
      Run.emit (.call (.fileList g.apiURI g.token username))
      match deps.fileList g.apiURI g.token username with
      | some err => pure (some ("Error: failed to get files, reason: " ++ err ++ "\n"))
      | none => pure none

/-- The flag set `fileIngestCmd`. -/
def fileIngestCmd : FlagSet :=
  ⟨"ingest", [⟨"filepath", "Filepath to ingest"⟩, ⟨"user", "Username to associate with the file"⟩]⟩

/-- The function `handleFileIngestCommand`. -/
def handleFileIngestCommand (deps : Deps) (g : Globals) : Run (Option String) := do
  let rest ← sliceFrom g.args 2
  let p ← fileIngestCmd.Parse (defaultUsage fileIngestCmd) rest
  let filepath := p.1.get "filepath"
  let username := p.1.get "user"
  if filepath = "" ∨ username = "" then
    pure (some ("Error: both -filepath and -user are required.\n" ++ fileIngestUsage))
  else
    match deps.CheckValidChars filepath with
    | some err => pure (some err)
    | none =>
      match deps.CheckTokenExpiration g.token with
      | some err => pure (some err)
      | none => do
        Run.emit (.call (.fileIngest g.apiURI g.token username filepath))
        match deps.fileIngest g.apiURI g.token username filepath with
        | some err => pure (some ("Error: failed to ingest file, reason: " ++ err ++ "\n"))
        | none => do
          Run.emit (.stdout ("File ingestion triggered successfully." ++ "\n"))
          pure none

/-- The flag set `fileAccessionCmd`. -/
def fileAccessionCmd : FlagSet :=
  ⟨"set-accession",
    [⟨"filepath", "Filepath to assign accession ID"⟩,
     ⟨"user", "Username to associate with the file"⟩,
     ⟨"accession-id", "Accession ID to assign"⟩]⟩

/-- The function `handleFileAccessionCommand`. -/
def handleFileAccessionCommand (deps : Deps) (g : Globals) : Run (Option String) := do
  let rest ← sliceFrom g.args 2
  let p ← fileAccessionCmd.Parse (defaultUsage fileAccessionCmd) rest
  let filepath := p.1.get "filepath"
  let username := p.1.get "user"
  let accessionID := p.1.get "accession-id"
  if filepath = "" ∨ username = "" ∨ accessionID = "" then
    pure (some ("Error: -filepath, -user, and -accession-id are required.\n" ++ fileAccessionUsage))
  else
    match deps.CheckValidChars filepath with
    | some err => pure (some err)
    | none =>
      match deps.CheckTokenExpiration g.token with
      | some err => pure (some err)
      | none => do
        Run.emit (.call (.fileSetAccession g.apiURI g.token username filepath accessionID))
        match deps.fileSetAccession g.apiURI g.token username filepath accessionID with
        | some err =>
          pure (some ("Error: failed to assign accession ID to file, reason: " ++ err ++ "\n"))
        | none => do
          Run.emit (.stdout ("Accession ID assigned to file successfully." ++ "\n"))
          pure none

/-- The function `handleFileCommand`. -/
def handleFileCommand (deps : Deps) (g : Globals) : Run (Option String) :=
  if g.NArg < 2 then
    pure (some ("Error: 'file' requires a subcommand (list, ingest, set-accession).\n" ++ fileUsage))
  else if g.Arg 1 = "list" then handleFileListCommand deps g
  else if g.Arg 1 = "ingest" then handleFileIngestCommand deps g
  else if g.Arg 1 = "set-accession" then handleFileAccessionCommand deps g
  else
    pure (some ("Unknown subcommand '" ++ g.Arg 1 ++ "' for '" ++ g.Arg 0 ++ "'.\n" ++ fileUsage))

/-- The flag set `datasetCreateCmd`. -/
def datasetCreateCmd : FlagSet := ⟨"create", [⟨"dataset-id", "ID of the dataset to create"⟩]⟩

/-- The function `handleDatasetCreateCommand`. -/
def handleDatasetCreateCommand (deps : Deps) (g : Globals) : Run (Option String) := do
  let rest ← sliceFrom g.args 2
  let p ← datasetCreateCmd.Parse (defaultUsage datasetCreateCmd) rest
  let datasetID := p.1.get "dataset-id"
  let accessionIDs := p.2 -- Args() returns the non-flag arguments after parsing
  if datasetID = "" ∨ accessionIDs.length = 0 then
    pure (some ("Error: -dataset-id and at least one accession ID are required.\n" ++
      datasetCreateUsage))
  else
    match deps.CheckTokenExpiration g.token with
    | some err => pure (some err)
    | none => do
      Run.emit (.call (.datasetCreate g.apiURI g.token datasetID accessionIDs))
      let err ← Dataset.Create deps g.apiURI g.token datasetID deps.createUsername accessionIDs
      match err with
      | some err => pure (some ("Error: failed to create dataset, reason: " ++ err ++ "\n"))
      | none => do
        Run.emit (.stdout ("Dataset created successfully." ++ "\n"))
        pure none

/-- The flag set `datasetReleaseCmd`. -/
def datasetReleaseCmd : FlagSet := ⟨"release", [⟨"dataset-id", "ID of the dataset to release"⟩]⟩

/-- The function `handleDatasetReleaseCommand`. -/
def handleDatasetReleaseCommand (deps : Deps) (g : Globals) : Run (Option String) := do
  let rest ← sliceFrom g.args 2
  let p ← datasetReleaseCmd.Parse (defaultUsage datasetReleaseCmd) rest
  let datasetID := p.1.get "dataset-id"
  if datasetID = "" then
    pure (some ("Error: -dataset-id is required.\n" ++ datasetReleaseUsage))
  else
    match deps.CheckTokenExpiration g.token with
    | some err => pure (some err)
    | none => do
      Run.emit (.call (.datasetRelease g.apiURI g.token datasetID))
      let err ← Dataset.Release deps g.apiURI g.token datasetID
      match err with
      | some err => pure (some ("Error: failed to release dataset, reason: " ++ err ++ "\n"))
      | none => do
        Run.emit (.stdout ("Dataset released successfully." ++ "\n"))
        pure none

/-- The function `handleDatasetCommand`. -/
def handleDatasetCommand (deps : Deps) (g : Globals) : Run (Option String) :=
  if g.NArg < 2 then
    pure (some ("Error: 'dataset' requires a subcommand (create, release).\n" ++ datasetUsage))
  else if g.Arg 1 = "create" then handleDatasetCreateCommand deps g
  else if g.Arg 1 = "release" then handleDatasetReleaseCommand deps g
  else
    pure (some ("Unknown subcommand '" ++ g.Arg 1 ++ "' for '" ++ g.Arg 0 ++ "'.\n" ++ datasetUsage))

/-- The step `if err != nil { fmt.Fprintln(os.Stderr, err); os.Exit(1) }` of
`main`. -/
def exitOnError (err : Option String) : Run Unit :=
  match err with
  | some e => do
    Run.emit (.stderr (e ++ "\n"))
    Run.exit 1
  | none => pure ()

/-- The function `main`, run on the arguments `os.Args[1:]`. -/
def main (deps : Deps) (argv : List String) : Run Unit := do
  let r ← parseFlagsAndEnv deps argv
  exitOnError r.1
  let g := r.2
  if g.Arg 0 = "help" ∨ g.Arg 0 = "-h" ∨ g.Arg 0 = "-help" then do
    let err ← handleHelpCommand g
    exitOnError err
  else if g.Arg 0 = "user" then do
    let err ← handleUserCommand deps g
    exitOnError err
  else if g.Arg 0 = "file" then do
    let err ← handleFileCommand deps g
    exitOnError err
  else if g.Arg 0 = "dataset" then do
    let err ← handleDatasetCommand deps g
    exitOnError err
  else if g.Arg 0 = "version" then
    printVersion
  else do
    Run.emit (.stderr ("Unknown command '" ++ g.Arg 0 ++ "'.\n"))
    Run.emit (.stderr usage)
    Run.exit 1
  Run.exit 0

end Main

/-! ## Sample collaborators

Concrete collaborators on which the theorems below are instantiated. -/

/-- Modelled from the spec: `helpers.CheckValidChars` is not among the source
files; the spec has it reject a path with a character outside an allow-list,
a control character such as a newline being its example.  This sample
rejects control characters. -/
def sampleCheckValidChars (filepath : String) : Option String :=
  if filepath.toList.any (fun c => c.toNat < 32 ∨ c.toNat = 127) then
    some "filepath contains disallowed characters"
  else none

/-- Sample collaborators: the token `expired` is expired, every request
succeeds with an empty response, every client operation succeeds, and the
environment sets neither `API_HOST` nor `ACCESS_TOKEN`. -/
def sampleDeps : Deps where
  CheckTokenExpiration := fun t => if t = "expired" then some "token has expired" else none
  CheckValidChars := sampleCheckValidChars
  PostRequest := fun _ _ _ => .ok []
  userList := fun _ _ => none
  fileList := fun _ _ _ => none
  fileIngest := fun _ _ _ _ => none
  fileSetAccession := fun _ _ _ _ _ => none
  quote := fun _ => "?"
  getenv := fun _ => ""
  createUsername := "admin"

/-- Sample collaborators whose server refuses every request: the HTTP helper
and the client operations all fail with the reason `status 500`. -/
def failingDeps : Deps :=
  { sampleDeps with
    PostRequest := fun _ _ _ => .error "status 500"
    userList := fun _ _ => some "status 500"
    fileList := fun _ _ _ => some "status 500"
    fileIngest := fun _ _ _ _ => some "status 500"
    fileSetAccession := fun _ _ _ _ _ => some "status 500" }

/-! ## Basic facts about runs and flag parsing -/

@[simp] theorem Run.bind_eq {α β : Type} (m : Run α) (f : α → Run β) :
    (m >>= f) = Run.bind m f := rfl

@[simp] theorem Run.pure_eq {α : Type} (a : α) : (Pure.pure a : Run α) = Run.pure a := rfl

/-- A flag set whose arguments parse returns the values and the remaining
arguments without writing anything. -/
theorem GoFlag.FlagSet.Parse_ok (fs : GoFlag.FlagSet) (u : Run Unit) (arguments : List String)
    (vals : GoFlag.Values) (args : List String)
    (h : GoFlag.parseArgs fs.formal arguments [] = .ok vals args) :
    fs.Parse u arguments = ⟨[], .ret (vals, args)⟩ := by
  simp [GoFlag.FlagSet.Parse, h, Run.pure]

/-- The usage function of a flag set only writes to standard error. -/
theorem GoFlag.defaultUsage_calls (fs : GoFlag.FlagSet) :
    (GoFlag.defaultUsage fs).calls = [] ∧ (GoFlag.defaultUsage fs).requests = [] := by
  simp [GoFlag.defaultUsage, Run.calls, Run.requests, GoFlag.printDefaults, List.filterMap_map]

open GoFlag Main

/-- What `parseFlagsAndEnv` returns when the first positional argument is
`help`: no error, and the flag values as given. -/
theorem parseFlagsAndEnv_help (deps : Deps) (argv : List String) (vals : Values)
    (rest : List String)
    (h : parseArgs commandLine.formal argv [] = .ok vals ("help" :: rest)) :
    parseFlagsAndEnv deps argv =
      ⟨[], .ret (none, ⟨vals.get "uri", vals.get "token", "help" :: rest⟩)⟩ := by
  simp [parseFlagsAndEnv, FlagSet.Parse_ok _ _ _ _ _ h, Run.bind, Run.pure, Globals.NArg,
    Globals.Arg]

/-- What `parseFlagsAndEnv` returns when the first positional argument is not
`help`: each of `apiURI` and `token` is the flag value if that is not empty
and the environment variable otherwise, and an error is returned when the
outcome is empty. -/
theorem parseFlagsAndEnv_command (deps : Deps) (argv : List String) (vals : Values)
    (c : String) (rest : List String)
    (h : parseArgs commandLine.formal argv [] = .ok vals (c :: rest)) (hc : c ≠ "help") :
    parseFlagsAndEnv deps argv =
      ⟨[], .ret
        (if (if vals.get "uri" = "" then deps.getenv "API_HOST" else vals.get "uri") = "" then
          (some "error: either -uri must be provided or API_HOST environment variable must be set.",
            ⟨"", vals.get "token", c :: rest⟩)
        else if (if vals.get "token" = "" then deps.getenv "ACCESS_TOKEN" else vals.get "token") = ""
        then
          (some "error: either -token must be provided or ACCESS_TOKEN environment variable must be set.",
            ⟨if vals.get "uri" = "" then deps.getenv "API_HOST" else vals.get "uri", "", c :: rest⟩)
        else
          (none, ⟨if vals.get "uri" = "" then deps.getenv "API_HOST" else vals.get "uri",
            if vals.get "token" = "" then deps.getenv "ACCESS_TOKEN" else vals.get "token",
            c :: rest⟩))⟩ := by
  simp only [parseFlagsAndEnv, FlagSet.Parse_ok _ _ _ _ _ h, Run.bind_eq, Run.bind, Run.pure_eq,
    Run.pure, Globals.NArg, Globals.Arg, List.length_cons, List.getD_cons_zero, hc, ne_eq,
    not_false_eq_true, if_true, if_false, Nat.add_one_ne_zero, List.append_nil, List.nil_append]
  by_cases h1 : vals.get "uri" = "" <;> by_cases h2 : vals.get "token" = "" <;>
    by_cases h3 : deps.getenv "API_HOST" = "" <;>
    by_cases h4 : deps.getenv "ACCESS_TOKEN" = "" <;>
    simp [h1, h2, h3, h4]

/-! ## Trailing slashes of the base URI -/

section TrailingSlash

open GoPath GoUrl

/-- A slash at the head of the input is skipped and leaves the loop at an
element boundary. -/
theorem GoPath.cleanLoop_slash (r : Bool) (y out : Bytes) (dd : Nat) (m : Bool) :
    cleanLoop r (ch '/' :: y) m out dd = cleanLoop r y false out dd := by
  cases m
  · cases y <;> simp [cleanLoop]
  · simp [cleanLoop]

/-- One step of the loop while an element is being copied. -/
theorem GoPath.cleanLoop_copying (r : Bool) (c : UInt8) (rest out : Bytes) (dd : Nat) :
    cleanLoop r (c :: rest) true out dd =
      if c = ch '/' then cleanLoop r rest false out dd
      else cleanLoop r rest true (out ++ [c]) dd := by
  conv_lhs => rw [cleanLoop]

/-- One step of the loop at an element boundary with two bytes ahead. -/
theorem GoPath.cleanLoop_boundary (r : Bool) (c d : UInt8) (rest2 out : Bytes) (dd : Nat) :
    cleanLoop r (c :: d :: rest2) false out dd =
      if c = ch '/' then cleanLoop r (d :: rest2) false out dd
      else if c = ch '.' ∧ d = ch '/' then cleanLoop r (d :: rest2) false out dd
      else if c = ch '.' ∧ d = ch '.' ∧ (rest2 = [] ∨ rest2.head? = some (ch '/')) then
        if out.length > dd then
          cleanLoop r rest2 false (out.take (backtrack out dd (out.length - 1))) dd
        else if !r then
          cleanLoop r rest2 false
            ((if out.length > 0 then out ++ [ch '/'] else out) ++ [ch '.', ch '.'])
            ((if out.length > 0 then out ++ [ch '/'] else out) ++ [ch '.', ch '.']).length
        else cleanLoop r rest2 false out dd
      else
        cleanLoop r (d :: rest2) true
          ((if (r && out.length != 1) || (!r && out.length != 0) then out ++ [ch '/'] else out)
            ++ [c]) dd := by
  conv_lhs => rw [cleanLoop]

/-- The loop does not tell a doubled slash from a single one. -/
theorem GoPath.cleanLoop_double_slash (r : Bool) (y : Bytes) (n : Nat) :
    ∀ z : Bytes, z.length ≤ n → ∀ (m : Bool) (out : Bytes) (dd : Nat),
      cleanLoop r (z ++ ch '/' :: ch '/' :: y) m out dd =
        cleanLoop r (z ++ ch '/' :: y) m out dd := by
  induction n with
  | zero =>
    intro z hz m out dd
    have : z = [] := List.length_eq_zero.mp (Nat.le_zero.mp hz)
    subst this
    simp [GoPath.cleanLoop_slash]
  | succ n ih =>
    intro z hz m out dd
    rcases z with _ | ⟨c, z'⟩
    · simp [GoPath.cleanLoop_slash]
    · have hz' : z'.length ≤ n := by simpa using hz
      cases m
      · -- at an element boundary
        rcases z' with _ | ⟨d, z''⟩
        · have hne : ¬ (ch '/' = ch '.') := by decide
          simp only [List.cons_append, List.nil_append, GoPath.cleanLoop_boundary,
            GoPath.cleanLoop_slash, hne, and_false, false_and, if_false]
          simp
        · have h1 := ih (d :: z'') hz'
          have h2 := ih z'' (by simp at hz'; omega)
          simp only [List.cons_append] at h1
          have hh : ∀ w : Bytes, ((z'' ++ ch '/' :: w) = [] ∨
              (z'' ++ ch '/' :: w).head? = some (ch '/')) ↔
              (z'' = [] ∨ z''.head? = some (ch '/')) := by
            intro w
            cases z'' <;> simp
          simp only [List.cons_append, GoPath.cleanLoop_boundary, h1, h2, hh]
      · simp only [List.cons_append, GoPath.cleanLoop_copying, ih z' hz']

/-- `path.Clean` does not tell a doubled slash from a single one. -/
theorem GoPath.Clean_double_slash (x y : Bytes) :
    Clean (x ++ ch '/' :: ch '/' :: y) = Clean (x ++ ch '/' :: y) := by
  rcases x with _ | ⟨c, x'⟩
  · simp [Clean, GoPath.cleanLoop_slash]
  · have h1 := GoPath.cleanLoop_double_slash true y _ x' (le_refl _)
    have h2 := GoPath.cleanLoop_double_slash false y _ (c :: x') (le_refl _)
    simp only [List.cons_append] at h2
    simp only [Clean, List.cons_append, List.head?_cons, List.tail_cons, h1, h2]
    simp


/-- Cutting at a separator that does not occur leaves the text whole. -/
theorem cut_of_not_mem {α : Type} [DecidableEq α] (sep : α) (l : List α) (h : sep ∉ l) :
    cut sep l = (l, [], false) := by
  induction l with
  | nil => rfl
  | cons c rest ih =>
    have hc : ¬ c = sep := fun hc => h (by simp [hc])
    have hr : sep ∉ rest := fun hr => h (by simp [hr])
    simp [cut, hc, ih hr]

/-- A separator appended at the end does not change the text before the
first separator. -/
theorem cut_append_sep_fst {α : Type} [DecidableEq α] (sep : α) (l : List α) :
    (cut sep (l ++ [sep])).1 = (cut sep l).1 := by
  induction l with
  | nil => simp [cut]
  | cons c rest ih =>
    by_cases hc : c = sep
    · simp [cut, hc]
    · simp [cut, hc, ih]

/-- The text before the first separator is no longer than the whole. -/
theorem cut_fst_length_le {α : Type} [DecidableEq α] (sep : α) (l : List α) :
    (cut sep l).1.length ≤ l.length := by
  induction l with
  | nil => simp [cut]
  | cons c rest ih =>
    by_cases hc : c = sep
    · simp [cut, hc]
    · simp [cut, hc]; exact ih

namespace GoUrl

/-- The check of an escape in a path: both digits must be hexadecimal. -/
theorem unescapeCheck_path_percent (d e : UInt8) (rest : Bytes) :
    unescapeCheck .encodePath (ch '%' :: d :: e :: rest) =
      if ishex d = true ∧ ishex e = true then unescapeCheck .encodePath rest
      else some (.escapeError [ch '%', d, e]) := by
  conv_lhs => rw [unescapeCheck]
  by_cases h1 : ishex d = true <;> by_cases h2 : ishex e = true <;> simp [h1, h2]

/-- A path that unescapes still does with a slash appended, and the slash
is kept as it is. -/
theorem unescape_path_append_slash (n : Nat) :
    ∀ p : Bytes, p.length ≤ n → unescapeCheck .encodePath p = none →
      unescapeCheck .encodePath (p ++ [ch '/']) = none ∧
      unescapeBuild .encodePath (p ++ [ch '/']) = unescapeBuild .encodePath p ++ [ch '/'] := by
  have hs : ¬ (ch '/' = ch '%') := by decide
  have hp : ¬ (ch '/' = ch '+') := by decide
  induction n with
  | zero =>
    intro p hp0 _
    have : p = [] := List.length_eq_zero.mp (Nat.le_zero.mp hp0)
    subst this
    simp [unescapeCheck, unescapeBuild, hs]
  | succ n ih =>
    intro p hl hc
    rcases p with _ | ⟨c, _ | ⟨d, _ | ⟨e, rest⟩⟩⟩
    · simp [unescapeCheck, unescapeBuild, hs]
    · by_cases h1 : c = ch '%'
      · simp [unescapeCheck, h1] at hc
      · simp [unescapeCheck, unescapeBuild, h1, hs]
    · by_cases h1 : c = ch '%'
      · simp [unescapeCheck, h1] at hc
      · by_cases h2 : d = ch '%'
        · simp [unescapeCheck, h1, h2] at hc
        · simp [unescapeCheck, unescapeBuild, h1, h2, hs]
    · by_cases h1 : c = ch '%'
      · subst h1
        rw [unescapeCheck_path_percent] at hc
        by_cases hx : ishex d = true ∧ ishex e = true
        swap
        · simp [hx] at hc
        have hr : unescapeCheck .encodePath rest = none := by simpa [hx] using hc
        have := ih rest (by simp at hl; omega) hr
        rcases rest with _ | ⟨f, rest'⟩
        · simp [unescapeCheck, unescapeBuild, hx, hs]
        · simp only [List.cons_append] at this ⊢
          simp [unescapeCheck, unescapeBuild, hx, this]
      · have hr : unescapeCheck .encodePath (d :: e :: rest) = none := by
          simpa [unescapeCheck, h1] using hc
        have := ih (d :: e :: rest) (by simp at hl ⊢; omega) hr
        simp only [List.cons_append] at this ⊢
        simp [unescapeCheck, unescapeBuild, h1, this]


/-- Escaping works byte by byte. -/
theorem escape_append (a b : Bytes) (m : Encoding) :
    escape (a ++ b) m = escape a m ++ escape b m := by
  simp [escape, List.flatMap_append]

/-- A slash is not escaped in a path. -/
theorem escape_slash : escape [ch '/'] .encodePath = [ch '/'] := by decide

/-- What `setPath` returns. -/
theorem setPath_eq (v : URL) (p : Bytes) :
    setPath v p =
      match unescapeCheck .encodePath p with
      | some e => .error e
      | none => .ok { v with Path := unescapeBuild .encodePath p,
                             RawPath := if p = escape (unescapeBuild .encodePath p) .encodePath
                               then [] else p } := by
  unfold setPath unescape
  cases unescapeCheck .encodePath p <;> rfl

/-- Setting a path with one more slash at its end, when the path is in the
encoding Go writes: the slash is appended to `Path` and `RawPath` stays
empty.  The host is the one before. -/
theorem setPath_append_slash (v u : URL) (p : Bytes) (hu : setPath v p = .ok u)
    (hr : u.RawPath = []) :
    setPath v (p ++ [ch '/']) = .ok { u with Path := u.Path ++ [ch '/'] } ∧ u.Host = v.Host := by
  rw [setPath_eq] at hu ⊢
  cases hc : unescapeCheck .encodePath p with
  | some e => simp [hc] at hu
  | none =>
    simp only [hc, Except.ok.injEq] at hu
    obtain ⟨h1, h2⟩ := unescape_path_append_slash _ p (le_refl _) hc
    subst hu
    have hp : p = escape (unescapeBuild .encodePath p) .encodePath := by
      by_cases hp : p = escape (unescapeBuild .encodePath p) .encodePath
      · exact hp
      · simp only [hp, if_false] at hr
        subst hr
        exact absurd rfl hp
    have hp' : p ++ [ch '/'] =
        escape (unescapeBuild .encodePath p ++ [ch '/']) .encodePath := by
      rw [escape_append, escape_slash, ← hp]
    simp only [h1, h2]
    simp [← hp, hp']

/-- A slash is no scheme character: the scan stops without a scheme. -/
theorem getSchemeFrom_slash (raw seen l : Bytes) :
    getSchemeFrom raw seen (ch '/' :: l) = .ok ([], raw) := by
  have h1 : ¬ ((ch 'a' ≤ ch '/' ∧ ch '/' ≤ ch 'z') ∨ (ch 'A' ≤ ch '/' ∧ ch '/' ≤ ch 'Z')) := by
    decide
  have h2 : ¬ ((ch '0' ≤ ch '/' ∧ ch '/' ≤ ch '9') ∨ ch '/' = ch '+' ∨ ch '/' = ch '-' ∨
      ch '/' = ch '.') := by decide
  have h3 : ¬ (ch '/' = ch ':') := by decide
  rw [getSchemeFrom, if_neg h1, if_neg h2, if_neg h3]

/-- A slash appended to the text does not change the scheme found and is
appended to the remainder. -/
theorem getSchemeFrom_append_slash (raw : Bytes) :
    ∀ (l seen s rest : Bytes), getSchemeFrom raw seen l = .ok (s, rest) →
      getSchemeFrom (raw ++ [ch '/']) seen (l ++ [ch '/']) = .ok (s, rest ++ [ch '/']) := by
  intro l
  induction l with
  | nil =>
    intro seen s rest h
    simp only [getSchemeFrom, Except.ok.injEq, Prod.mk.injEq] at h
    obtain ⟨h1, h2⟩ := h
    subst h1 h2
    exact getSchemeFrom_slash _ _ _
  | cons c l ih =>
    intro seen s rest h
    simp only [getSchemeFrom, List.cons_append] at h ⊢
    split_ifs at h ⊢ with h1 h2 h3 h4 h5
    · exact ih _ _ _ h
    · simp only [Except.ok.injEq, Prod.mk.injEq] at h ⊢
      obtain ⟨ha, hb⟩ := h
      subst ha hb
      exact ⟨rfl, rfl⟩
    · exact ih _ _ _ h
    · simp only [Except.ok.injEq, Prod.mk.injEq] at h ⊢
      obtain ⟨ha, hb⟩ := h
      subst ha hb
      exact ⟨rfl, rfl⟩
    · simp only [Except.ok.injEq, Prod.mk.injEq] at h ⊢
      obtain ⟨ha, hb⟩ := h
      subst ha hb
      exact ⟨rfl, rfl⟩


/-- The remainder after the scheme holds no byte that the text lacks. -/
theorem getSchemeFrom_not_mem (raw : Bytes) (x : UInt8) (hraw : x ∉ raw) :
    ∀ (l seen s rest : Bytes), getSchemeFrom raw seen l = .ok (s, rest) → x ∉ l → x ∉ rest := by
  intro l
  induction l with
  | nil =>
    intro seen s rest h _
    simp only [getSchemeFrom, Except.ok.injEq, Prod.mk.injEq] at h
    rw [← h.2]; exact hraw
  | cons c l ih =>
    intro seen s rest h hl
    have hl' : x ∉ l := fun hx => hl (List.mem_cons_of_mem _ hx)
    simp only [getSchemeFrom] at h
    split_ifs at h with h1 h2 h3 h4 h5
    · exact ih _ _ _ h hl'
    · simp only [Except.ok.injEq, Prod.mk.injEq] at h
      rw [← h.2]; exact hraw
    · exact ih _ _ _ h hl'
    · simp only [Except.ok.injEq, Prod.mk.injEq] at h
      rw [← h.2]; exact hl'
    · simp only [Except.ok.injEq, Prod.mk.injEq] at h
      rw [← h.2]; exact hraw

/-- The shape of `parseNoFragment` on text without `?`. -/
theorem parseNoFragment_noquery (b scheme rest : Bytes)
    (hctl : stringContainsCTLByte b = false) (hstar : b ≠ utf8 "*")
    (hgs : getScheme b = .ok (scheme, rest)) (hq : ch '?' ∉ rest) :
    parseNoFragment b =
      if rest.head? ≠ some (ch '/') ∧ toLower scheme ≠ [] then
        .ok { Scheme := toLower scheme, Opaque := rest }
      else if rest.head? ≠ some (ch '/') ∧ ch ':' ∈ (cut (ch '/') rest).1 then
        .error .colonInFirstSegment
      else if (toLower scheme ≠ [] ∨ ¬ (utf8 "///").isPrefixOf rest) ∧
          (utf8 "//").isPrefixOf rest then
        match parseAuthority (cut (ch '/') (rest.drop 2)).1 with
        | .error e => .error e
        | .ok (user, host) =>
          setPath { Scheme := toLower scheme, User := user, Host := host }
            ((rest.drop 2).drop (cut (ch '/') (rest.drop 2)).1.length)
      else if toLower scheme ≠ [] ∧ rest.head? = some (ch '/') then
        setPath { Scheme := toLower scheme, OmitHost := true } rest
      else setPath { Scheme := toLower scheme } rest := by
  have hcnt : rest.count (ch '?') = 0 := List.count_eq_zero.mpr hq
  have hcut : cut (ch '?') rest = (rest, [], false) := cut_of_not_mem _ _ hq
  simp only [parseNoFragment, hctl, hstar, hgs, hcnt, hcut]
  simp


/-- The empty authority has no user and an empty host. -/
theorem parseAuthority_nil : parseAuthority [] = .ok (none, []) := by decide

/-- A slash appended to a text without `?` that parses with a host and a
path in default encoding: the same URL with the slash appended to its path. -/
theorem parseNoFragment_append_slash (b : Bytes) (u : URL) (hq : ch '?' ∉ b)
    (hu : parseNoFragment b = .ok u) (hh : u.Host ≠ []) (hr : u.RawPath = []) :
    parseNoFragment (b ++ [ch '/']) = .ok { u with Path := u.Path ++ [ch '/'] } := by
  have hctl : stringContainsCTLByte b = false := by
    by_cases h : stringContainsCTLByte b = true
    · simp [parseNoFragment, h] at hu
    · simpa using h
  have hstar : b ≠ utf8 "*" := by
    intro h
    subst h
    have : parseNoFragment (utf8 "*") = .ok { Path := utf8 "*" } := by decide
    rw [this] at hu
    simp only [Except.ok.injEq] at hu
    subst hu
    exact hh rfl
  have hctl' : stringContainsCTLByte (b ++ [ch '/']) = false := by
    simp only [stringContainsCTLByte, List.any_append] at hctl ⊢
    rw [hctl]; decide
  have hstar' : b ++ [ch '/'] ≠ utf8 "*" := by
    intro h
    have h1 := congrArg List.getLast? h
    simp at h1
    revert h1
    decide
  cases hgs : getScheme b with
  | error e => simp [parseNoFragment, hctl, hstar, hgs] at hu
  | ok sr =>
    obtain ⟨scheme, rest⟩ := sr
    have hgs' : getScheme (b ++ [ch '/']) = .ok (scheme, rest ++ [ch '/']) :=
      getSchemeFrom_append_slash b b [] scheme rest hgs
    have hq0 : ch '?' ∉ rest := getSchemeFrom_not_mem b _ hq b [] scheme rest hgs hq
    have hq0' : ch '?' ∉ rest ++ [ch '/'] := by
      simp only [List.mem_append, List.mem_singleton, not_or]
      exact ⟨hq0, by decide⟩
    rw [parseNoFragment_noquery b scheme rest hctl hstar hgs hq0] at hu
    rw [parseNoFragment_noquery _ scheme _ hctl' hstar' hgs' hq0']
    have hsl : utf8 "//" = [ch '/', ch '/'] := by decide
    have hsl3 : utf8 "///" = [ch '/', ch '/', ch '/'] := by decide
    split_ifs at hu with c1 c2 c3 c4
    · simp only [Except.ok.injEq] at hu
      subst hu
      exact absurd rfl hh
    · -- the authority branch
      obtain ⟨a0, ha0⟩ : ∃ a0, rest = ch '/' :: ch '/' :: a0 := by
        obtain ⟨t, ht⟩ := List.isPrefixOf_iff_prefix.mp c3.2
        exact ⟨t, by rw [← ht, hsl]; rfl⟩
      subst ha0
      simp only [List.drop_succ_cons, List.drop_zero] at hu
      cases hpa : parseAuthority (cut (ch '/') a0).1 with
      | error e => simp [hpa] at hu
      | ok uh =>
        obtain ⟨user, host⟩ := uh
        simp only [hpa] at hu
        have hhost := (setPath_append_slash _ _ _ hu hr).2
        simp only at hhost
        have hne : a0 ≠ [] := by
          intro h0
          subst h0
          have h1 : (cut (ch '/') ([] : Bytes)).1 = [] := rfl
          rw [h1, parseAuthority_nil] at hpa
          simp only [Except.ok.injEq, Prod.mk.injEq] at hpa
          exact hh (by rw [hhost, ← hpa.2])
        obtain ⟨x, a1, hx⟩ : ∃ x a1, a0 = x :: a1 := by
          cases a0 with
          | nil => exact absurd rfl hne
          | cons x a1 => exact ⟨x, a1, rfl⟩
        have hc1 : ¬ ((ch '/' :: ch '/' :: a0 ++ [ch '/']).head? ≠ some (ch '/') ∧
            toLower scheme ≠ []) := by simp
        have hc2 : ¬ ((ch '/' :: ch '/' :: a0 ++ [ch '/']).head? ≠ some (ch '/') ∧
            ch ':' ∈ (cut (ch '/') (ch '/' :: ch '/' :: a0 ++ [ch '/'])).1) := by simp
        have hc3 : (toLower scheme ≠ [] ∨
            ¬ (utf8 "///").isPrefixOf (ch '/' :: ch '/' :: a0 ++ [ch '/'])) ∧
            (utf8 "//").isPrefixOf (ch '/' :: ch '/' :: a0 ++ [ch '/']) := by
          refine ⟨?_, ?_⟩
          · rcases c3.1 with h | h
            · exact Or.inl h
            · right
              subst hx
              simpa [hsl3] using h
          · simp [hsl]
        rw [if_neg hc1, if_neg hc2, if_pos hc3]
        have hd : List.drop 2 (ch '/' :: ch '/' :: a0 ++ [ch '/']) = a0 ++ [ch '/'] := rfl
        rw [hd, cut_append_sep_fst, hpa]
        simp only
        rw [List.drop_append_of_le_length (cut_fst_length_le _ _)]
        exact (setPath_append_slash _ _ _ hu hr).1
    · have := (setPath_append_slash _ _ _ hu hr).2
      rw [this] at hh
      exact absurd rfl hh
    · have := (setPath_append_slash _ _ _ hu hr).2
      rw [this] at hh
      exact absurd rfl hh


/-- The same for `url.Parse`, on text without `?` and `#`. -/
theorem Parse_append_slash (b : Bytes) (u : URL) (hq : ch '?' ∉ b) (hf : ch '#' ∉ b)
    (hu : Parse b = .ok u) (hh : u.Host ≠ []) (hr : u.RawPath = []) :
    Parse (b ++ [ch '/']) = .ok { u with Path := u.Path ++ [ch '/'] } := by
  have hf' : ch '#' ∉ b ++ [ch '/'] := by
    simp only [List.mem_append, List.mem_singleton, not_or]
    exact ⟨hf, by decide⟩
  have hn : parseNoFragment b = .ok u := by
    simp only [Parse, cut_of_not_mem _ _ hf] at hu
    cases hp : parseNoFragment b with
    | error e => simp [hp] at hu
    | ok v => simpa [hp] using hu
  simp only [Parse, cut_of_not_mem _ _ hf', parseNoFragment_append_slash b u hq hn hh hr]
  simp

/-- The same for any number of slashes appended. -/
theorem Parse_append_slashes (b : Bytes) (u : URL) (hq : ch '?' ∉ b) (hf : ch '#' ∉ b)
    (hu : Parse b = .ok u) (hh : u.Host ≠ []) (hr : u.RawPath = []) (k : Nat) :
    Parse (b ++ List.replicate k (ch '/')) =
      .ok { u with Path := u.Path ++ List.replicate k (ch '/') } := by
  induction k with
  | zero => simpa using hu
  | succ k ih =>
    have hq' : ch '?' ∉ b ++ List.replicate k (ch '/') := by
      simp only [List.mem_append, List.mem_replicate, not_or, not_and]
      exact ⟨hq, fun _ => by decide⟩
    have hf' : ch '#' ∉ b ++ List.replicate k (ch '/') := by
      simp only [List.mem_append, List.mem_replicate, not_or, not_and]
      exact ⟨hf, fun _ => by decide⟩
    have := Parse_append_slash _ _ hq' hf' ih hh hr
    rw [List.replicate_succ', ← List.append_assoc, this]
    simp

/-- Escaping does not create a leading slash. -/
theorem escape_head (x : Bytes) (m : Encoding) (hx : x.head? ≠ some (ch '/')) :
    (escape x m).head? ≠ some (ch '/') := by
  cases x with
  | nil => simp [escape]
  | cons c x' =>
    have hc : c ≠ ch '/' := by simpa using hx
    have hp : ch '%' ≠ ch '/' := by decide
    have hpl : ch '+' ≠ ch '/' := by decide
    simp only [escape, List.flatMap_cons]
    split_ifs <;> simp [hc, hp, hpl]

/-- Escaping a non-empty text gives a non-empty text. -/
theorem escape_ne_nil (x : Bytes) (m : Encoding) (hx : x ≠ []) : escape x m ≠ [] := by
  cases x with
  | nil => exact absurd rfl hx
  | cons c x' =>
    simp only [escape, List.flatMap_cons]
    split_ifs <;> simp

/-- With a host, a leading slash of the path does not show in the URL: one
is written anyway. -/
theorem URL.String_leading_slash (u : URL) (x : Bytes) (hh : u.Host ≠ [])
    (hr : u.RawPath = []) (hx : x.head? ≠ some (ch '/')) (hxs : x.head? ≠ some (ch '*'))
    (hx0 : x ≠ []) :
    ({ u with Path := ch '/' :: x } : URL).String = ({ u with Path := x } : URL).String := by
  have hstar : utf8 "*" = [ch '*'] := by decide
  have hsl : utf8 "//" = [ch '/', ch '/'] := by decide
  have h1 : (ch '/' :: x) ≠ utf8 "*" := by
    intro h
    rw [hstar] at h
    injection h with h3 _
    exact absurd h3 (by decide)
  have h2 : x ≠ utf8 "*" := by
    intro h
    rw [h, hstar] at hxs
    exact hxs rfl
  have he : escape (ch '/' :: x) .encodePath = ch '/' :: escape x .encodePath := by
    have : ch '/' :: x = [ch '/'] ++ x := rfl
    rw [this, escape_append, escape_slash]; rfl
  have hne := escape_ne_nil x .encodePath hx0
  have hhd := escape_head x .encodePath hx
  simp [URL.String, URL.EscapedPath, URL.EscapedFragment, hr, h1, h2, he, hh, hne, hhd, hsl]

end GoUrl

/-- The encoding of a concatenation. -/
theorem utf8_append (a b : String) : utf8 (a ++ b) = utf8 a ++ utf8 b := by
  simp [utf8, String.toList, String.data_append, List.flatMap_append]

/-- The encoding of a run of slashes. -/
theorem utf8_slashes (k : Nat) :
    utf8 (String.mk (List.replicate k '/')) = List.replicate k (ch '/') := by
  induction k with
  | zero => rfl
  | succ k ih =>
    have h1 : String.utf8EncodeChar '/' = [ch '/'] := by decide
    simp only [utf8, String.toList, List.replicate_succ, List.flatMap_cons, h1] at ih ⊢
    rw [ih]; rfl

/-- The URL built on a parsed base URL with a host does not depend on one
trailing slash of the base path. -/
theorem joined_trailing_slash (u : GoUrl.URL) (P s tail : Bytes) (hh : u.Host ≠ [])
    (hr : u.RawPath = []) (hs : s ≠ [])
    (hs1 : GoPath.Clean (ch '/' :: ch '/' :: s) = ch '/' :: GoPath.Clean s)
    (hs2 : (GoPath.Clean s).head? ≠ some (ch '/'))
    (hs3 : (GoPath.Clean s).head? ≠ some (ch '*')) (hs4 : GoPath.Clean s ≠ []) :
    ({ u with Path := GoPath.Join [P ++ [ch '/'], s] ++ tail } : GoUrl.URL).String =
      ({ u with Path := GoPath.Join [P, s] ++ tail } : GoUrl.URL).String := by
  have hlen : 0 < s.length := List.length_pos.mpr hs
  have hj1 : GoPath.Join [P ++ [ch '/'], s] = GoPath.Clean (P ++ ch '/' :: ch '/' :: s) := by
    have : ¬ (P.length + 1 + (s.length + 0) = 0) := by omega
    simp [GoPath.Join, GoPath.joinBuf, this]
  rw [hj1]
  by_cases hP : P = []
  · subst hP
    have hj2 : GoPath.Join [[], s] = GoPath.Clean s := by
      have : ¬ (s.length = 0) := by omega
      simp [GoPath.Join, GoPath.joinBuf, this, hs]
    rw [hj2, List.nil_append, hs1, List.cons_append]
    obtain ⟨c, t, hc⟩ : ∃ c t, GoPath.Clean s = c :: t := by
      cases h : GoPath.Clean s with
      | nil => exact absurd h hs4
      | cons c t => exact ⟨c, t, rfl⟩
    rw [hc] at hs2 hs3 ⊢
    exact GoUrl.URL.String_leading_slash u _ hh hr (by simpa using hs2) (by simpa using hs3)
      (by simp)
  · have hj2 : GoPath.Join [P, s] = GoPath.Clean (P ++ ch '/' :: s) := by
      have h1 : ¬ (P.length + (s.length + 0) = 0) := by omega
      have h2 : 0 < P.length := List.length_pos.mpr hP
      simp [GoPath.Join, GoPath.joinBuf, h1, h2, hP]
    rw [hj2, GoPath.Clean_double_slash]

/-- The same for any number of trailing slashes. -/
theorem joined_trailing_slashes (u : GoUrl.URL) (P s tail : Bytes) (hh : u.Host ≠ [])
    (hr : u.RawPath = []) (hs : s ≠ [])
    (hs1 : GoPath.Clean (ch '/' :: ch '/' :: s) = ch '/' :: GoPath.Clean s)
    (hs2 : (GoPath.Clean s).head? ≠ some (ch '/'))
    (hs3 : (GoPath.Clean s).head? ≠ some (ch '*')) (hs4 : GoPath.Clean s ≠ []) (k : Nat) :
    ({ u with Path := GoPath.Join [P ++ List.replicate k (ch '/'), s] ++ tail } :
        GoUrl.URL).String =
      ({ u with Path := GoPath.Join [P, s] ++ tail } : GoUrl.URL).String := by
  induction k with
  | zero => simp
  | succ k ih =>
    rw [List.replicate_succ', ← List.append_assoc,
      joined_trailing_slash u _ s tail hh hr hs hs1 hs2 hs3 hs4, ih]

end TrailingSlash

/-! ## Joined paths of plain URLs -/

section JoinedPath

open GoPath GoUrl

/-- While it copies an element the loop of `Clean` moves the bytes before the
next slash to the output. -/
theorem GoPath.cleanLoop_copy_slash (r : Bool) (y : Bytes) (dd : Nat) :
    ∀ (t out : Bytes), ch '/' ∉ t →
      cleanLoop r (t ++ ch '/' :: y) true out dd = cleanLoop r y false (out ++ t) dd := by
  intro t
  induction t with
  | nil => intro out _; simp [GoPath.cleanLoop_slash]
  | cons c t ih =>
    intro out h
    have hc : ¬ c = ch '/' := fun hc => h (by simp [hc])
    have ht : ch '/' ∉ t := fun ht => h (by simp [ht])
    simp only [List.cons_append, GoPath.cleanLoop_copying, hc, if_false, ih _ ht]
    simp

/-- While it copies the last element the loop of `Clean` moves it to the
output. -/
theorem GoPath.cleanLoop_copy_end (r : Bool) (dd : Nat) :
    ∀ (t out : Bytes), ch '/' ∉ t → cleanLoop r t true out dd = out ++ t := by
  intro t
  induction t with
  | nil => intro out _; simp [cleanLoop]
  | cons c t ih =>
    intro out h
    have hc : ¬ c = ch '/' := fun hc => h (by simp [hc])
    have ht : ch '/' ∉ t := fun ht => h (by simp [ht])
    simp only [GoPath.cleanLoop_copying, hc, if_false, ih _ ht]
    simp

/-- At the start of a proper element followed by a slash the loop of `Clean`
writes a separator and the element. -/
theorem GoPath.cleanLoop_element_slash (r : Bool) (e y out : Bytes) (dd : Nat)
    (he : GoPath.isElement e) :
    cleanLoop r (e ++ ch '/' :: y) false out dd =
      cleanLoop r y false (GoPath.withSep r out ++ e) dd := by
  obtain ⟨h0, hs, hd, hdd⟩ := he
  have hdot : utf8 "." = [ch '.'] := by decide
  have hdotdot : utf8 ".." = [ch '.', ch '.'] := by decide
  rw [hdot] at hd
  rw [hdotdot] at hdd
  rcases e with _ | ⟨c, _ | ⟨d, t⟩⟩
  · exact absurd rfl h0
  · have hc : ¬ c = ch '/' := fun hc => hs (by simp [hc])
    have hc2 : ¬ c = ch '.' := fun hc => hd (by simp [hc])
    have hne : ¬ (ch '/' = ch '.') := by decide
    simp only [List.cons_append, List.nil_append, GoPath.cleanLoop_boundary, hc, hc2, hne,
      false_and, and_false, if_false, GoPath.cleanLoop_slash, GoPath.withSep]
  · have hc : ¬ c = ch '/' := fun hc => hs (by simp [hc])
    have hd1 : ¬ d = ch '/' := fun hc => hs (by simp [hc])
    have ht : ch '/' ∉ t := fun ht => hs (by simp [ht])
    have hcond : ¬ (c = ch '.' ∧ d = ch '.' ∧
        ((t ++ ch '/' :: y) = [] ∨ (t ++ ch '/' :: y).head? = some (ch '/'))) := by
      rintro ⟨h1, h2, h3⟩
      rcases t with _ | ⟨x, t'⟩
      · exact hdd (by rw [h1, h2])
      · have hx : ¬ x = ch '/' := fun hx => ht (by simp [hx])
        simp [hx] at h3
    have := GoPath.cleanLoop_copy_slash r y dd (d :: t)
      (GoPath.withSep r out ++ [c]) (by simpa using ⟨fun h => hd1 h.symm, ht⟩)
    simp only [List.cons_append] at this
    simp only [List.cons_append, GoPath.cleanLoop_boundary, hc, hd1, hcond, and_false, if_false]
    rw [GoPath.withSep] at this ⊢
    rw [this]
    simp

/-- At the start of a last, proper element the loop of `Clean` writes a
separator and the element. -/
theorem GoPath.cleanLoop_element_end (r : Bool) (e out : Bytes) (dd : Nat)
    (he : GoPath.isElement e) :
    cleanLoop r e false out dd = GoPath.withSep r out ++ e := by
  obtain ⟨h0, hs, hd, hdd⟩ := he
  have hdot : utf8 "." = [ch '.'] := by decide
  have hdotdot : utf8 ".." = [ch '.', ch '.'] := by decide
  rw [hdot] at hd
  rw [hdotdot] at hdd
  rcases e with _ | ⟨c, _ | ⟨d, t⟩⟩
  · exact absurd rfl h0
  · have hc : ¬ c = ch '/' := fun hc => hs (by simp [hc])
    have hc2 : ¬ c = ch '.' := fun hc => hd (by simp [hc])
    simp [cleanLoop, hc, hc2, GoPath.withSep]
  · have hc : ¬ c = ch '/' := fun hc => hs (by simp [hc])
    have hd1 : ¬ d = ch '/' := fun hc => hs (by simp [hc])
    have ht : ch '/' ∉ t := fun ht => hs (by simp [ht])
    have hcond : ¬ (c = ch '.' ∧ d = ch '.' ∧ (t = [] ∨ t.head? = some (ch '/'))) := by
      rintro ⟨h1, h2, h3⟩
      rcases t with _ | ⟨x, t'⟩
      · exact hdd (by rw [h1, h2])
      · have hx : ¬ x = ch '/' := fun hx => ht (by simp [hx])
        simp [hx] at h3
    have := GoPath.cleanLoop_copy_end r dd (d :: t)
      (GoPath.withSep r out ++ [c]) (by simpa using ⟨fun h => hd1 h.symm, ht⟩)
    simp only [GoPath.cleanLoop_boundary, hc, hd1, hcond, and_false, if_false]
    rw [GoPath.withSep] at this ⊢
    rw [this]
    simp

/-- On elements separated by single slashes the loop of a rooted path writes
them out as they are. -/
theorem GoPath.cleanLoop_elements (dd : Nat) :
    ∀ (es : List Bytes) (e out : Bytes), GoPath.isElement e → (∀ x ∈ es, GoPath.isElement x) →
      cleanLoop true (e ++ GoPath.rootedPath es) false out dd =
        GoPath.withSep true out ++ e ++ GoPath.rootedPath es := by
  intro es
  induction es with
  | nil =>
    intro e out he _
    simp [GoPath.rootedPath, GoPath.cleanLoop_element_end _ _ _ _ he]
  | cons e2 es ih =>
    intro e out he hes
    have he2 : GoPath.isElement e2 := hes e2 (by simp)
    have hes' : ∀ x ∈ es, GoPath.isElement x := fun x hx => hes x (by simp [hx])
    have hlen : (GoPath.withSep true out ++ e).length ≠ 1 := by
      have : 0 < e.length := List.length_pos.mpr he.1
      simp only [GoPath.withSep, List.length_append]
      split_ifs with h
      · simp; omega
      · simp at h
        omega
    have hr : GoPath.rootedPath (e2 :: es) = ch '/' :: (e2 ++ GoPath.rootedPath es) := by
      simp [GoPath.rootedPath]
    have hsep : GoPath.withSep true (GoPath.withSep true out ++ e) =
        GoPath.withSep true out ++ e ++ [ch '/'] := by
      have hlen' : ¬ (GoPath.withSep true out).length + e.length = 1 := by
        simpa using hlen
      conv_lhs => rw [GoPath.withSep]
      simp [hlen']
    rw [hr, GoPath.cleanLoop_element_slash _ _ _ _ _ he, ih e2 _ he2 hes', hsep]
    simp

/-- A rooted path of proper elements is clean. -/
theorem GoPath.Clean_rootedPath (es : List Bytes) (hes : ∀ x ∈ es, GoPath.isElement x)
    (hne : es ≠ []) : Clean (GoPath.rootedPath es) = GoPath.rootedPath es := by
  rcases es with _ | ⟨e, es⟩
  · exact absurd rfl hne
  · have he : GoPath.isElement e := hes e (by simp)
    have hes' : ∀ x ∈ es, GoPath.isElement x := fun x hx => hes x (by simp [hx])
    have hr : GoPath.rootedPath (e :: es) = ch '/' :: (e ++ GoPath.rootedPath es) := by
      simp [GoPath.rootedPath]
    have h0 : 0 < e.length := List.length_pos.mpr he.1
    rw [hr]
    simp [Clean, GoPath.cleanLoop_elements 1 es e [ch '/'] he hes', GoPath.withSep]

/-- `Clean` reads a run of slashes as one slash. -/
theorem GoPath.Clean_slashes (x y : Bytes) (k : Nat) :
    Clean (x ++ List.replicate k (ch '/') ++ ch '/' :: y) = Clean (x ++ ch '/' :: y) := by
  induction k with
  | zero => simp
  | succ k ih =>
    rw [List.replicate_succ', ← List.append_assoc, List.append_assoc _ [ch '/'],
      List.singleton_append, GoPath.Clean_double_slash, ih]

/-- Joining two proper elements `a/b` to a rooted path of proper elements,
followed by any number of slashes, appends them as two more elements. -/
theorem GoPath.Join_rootedPath (es : List Bytes) (k : Nat) (a b : Bytes)
    (hes : ∀ x ∈ es, GoPath.isElement x) (ha : GoPath.isElement a) (hb : GoPath.isElement b)
    (h : es ≠ [] ∨ 0 < k) :
    Join [GoPath.rootedPath es ++ List.replicate k (ch '/'), a ++ ch '/' :: b] =
      GoPath.rootedPath (es ++ [a, b]) := by
  have hP : GoPath.rootedPath es ++ List.replicate k (ch '/') ≠ [] := by
    rcases h with h | h
    · rcases es with _ | ⟨e, es⟩
      · exact absurd rfl h
      · simp [GoPath.rootedPath]
    · cases k with
      | zero => omega
      | succ k => simp [List.replicate_succ]
  have hlen : 0 < (GoPath.rootedPath es ++ List.replicate k (ch '/')).length :=
    List.length_pos.mpr hP
  have hj : Join [GoPath.rootedPath es ++ List.replicate k (ch '/'), a ++ ch '/' :: b] =
      Clean (GoPath.rootedPath es ++ List.replicate k (ch '/') ++ ch '/' :: (a ++ ch '/' :: b)) := by
    have h1 : ¬ ((GoPath.rootedPath es ++ List.replicate k (ch '/')).length +
        ((a ++ ch '/' :: b).length + 0) = 0) := by omega
    simp only [Join, joinBuf, List.map_cons, List.map_nil, List.sum_cons, List.sum_nil, h1,
      if_false, List.length_nil, gt_iff_lt, lt_self_iff_false, hP, ne_eq, not_false_eq_true,
      or_true, if_true, List.nil_append, hlen, true_or]
    simp
  have hall : ∀ x ∈ es ++ [a, b], GoPath.isElement x := by
    intro x hx
    simp only [List.mem_append, List.mem_cons, List.mem_singleton, List.not_mem_nil,
      or_false] at hx
    rcases hx with hx | hx | hx
    · exact hes x hx
    · exact hx ▸ ha
    · exact hx ▸ hb
  have hcat : GoPath.rootedPath es ++ ch '/' :: (a ++ ch '/' :: b) =
      GoPath.rootedPath (es ++ [a, b]) := by
    simp [GoPath.rootedPath, List.flatMap_append]
  rw [hj, GoPath.Clean_slashes, hcat, GoPath.Clean_rootedPath _ hall (by simp)]

/-- An unreserved byte is escaped in no mode. -/
theorem GoUrl.shouldEscape_unreserved (c : UInt8) (m : Encoding) (h : GoUrl.unreserved c) :
    shouldEscape c m = false := by
  unfold GoUrl.unreserved at h
  unfold shouldEscape
  rcases h with h | h | h | h
  · simp [h]
  · simp [h]
  · simp [h]
  · split_ifs <;> simp_all

/-- A colon is not escaped in a host. -/
theorem GoUrl.shouldEscape_colon_host : shouldEscape (ch ':') .encodeHost = false := by decide

/-- A text none of whose bytes is to be escaped is written as it is. -/
theorem GoUrl.escape_eq_self (x : Bytes) (m : Encoding)
    (h : ∀ c ∈ x, shouldEscape c m = false) : escape x m = x := by
  induction x with
  | nil => rfl
  | cons c x ih =>
    have hc := h c (by simp)
    have hx : ∀ c ∈ x, shouldEscape c m = false := fun c hc => h c (by simp [hc])
    have := ih hx
    simp only [escape, List.flatMap_cons, hc] at this ⊢
    simp [this]

/-- The text of a plain URL whose path starts with a slash. -/
theorem GoUrl.URL.String_plain (u : URL) (hp : u.isPlain) (N : Bytes)
    (hN : N.head? = some (ch '/')) :
    ({ u with Path := N } : URL).String =
      u.Scheme ++ utf8 "://" ++ u.Host ++ escape N .encodePath := by
  obtain ⟨h1, h2, h3, h4, h5, h6, h7, h8, h9⟩ := hp
  have hstar : utf8 "*" = [ch '*'] := by decide
  have hsl : utf8 "//" = [ch '/', ch '/'] := by decide
  have hcs : utf8 "://" = [ch ':', ch '/', ch '/'] := by decide
  obtain ⟨n, rfl⟩ : ∃ n, N = ch '/' :: n := by
    cases N with
    | nil => simp at hN
    | cons c n => exact ⟨n, by simp at hN; rw [hN]⟩
  have hne : (ch '/' :: n) ≠ utf8 "*" := by
    intro h
    rw [hstar] at h
    injection h with h3 _
    exact absurd h3 (by decide)
  have he : escape (ch '/' :: n) .encodePath = ch '/' :: escape n .encodePath := by
    have : ch '/' :: n = [ch '/'] ++ n := rfl
    rw [this, GoUrl.escape_append, GoUrl.escape_slash]; rfl
  have hh : escape u.Host .encodeHost = u.Host := by
    apply GoUrl.escape_eq_self
    intro c hc
    rcases h5 c hc with h | h
    · exact GoUrl.shouldEscape_unreserved c _ h
    · rw [h]; exact GoUrl.shouldEscape_colon_host
  simp [URL.String, URL.EscapedPath, h1, h2, h3, h4, h6, h7, h8, h9, hne, he, hh, hsl, hcs]

/-- A rooted path of unreserved elements is written as it is. -/
theorem GoPath.escape_rootedPath (es : List Bytes)
    (hes : ∀ x ∈ es, ∀ c ∈ x, GoUrl.unreserved c) :
    escape (GoPath.rootedPath es) .encodePath = GoPath.rootedPath es := by
  apply GoUrl.escape_eq_self
  intro c hc
  simp only [GoPath.rootedPath, List.mem_flatMap, List.mem_cons] at hc
  obtain ⟨e, he, hc⟩ := hc
  rcases hc with hc | hc
  · rw [hc]; decide
  · exact GoUrl.shouldEscape_unreserved c _ (hes e he c hc)

/-- The URL written for a plain base URL with a path of proper elements and
any number of trailing slashes, after two more elements `a/b` are joined to
the path and `tail` is appended: scheme, host, the elements, `a`, `b`, and
the tail escaped. -/
theorem plain_joined_url (u : GoUrl.URL) (hp : u.isPlain) (es : List Bytes) (k : Nat)
    (a b tail : Bytes) (hpath : u.Path = GoPath.rootedPath es ++ List.replicate k (ch '/'))
    (hes : ∀ x ∈ es, GoPath.isElement x) (hun : ∀ x ∈ es, ∀ c ∈ x, GoUrl.unreserved c)
    (ha : GoPath.isElement a) (hb : GoPath.isElement b)
    (hua : ∀ c ∈ a, GoUrl.unreserved c) (hub : ∀ c ∈ b, GoUrl.unreserved c)
    (hclean : GoPath.Clean (a ++ ch '/' :: b) = a ++ ch '/' :: b) :
    ({ u with Path := GoPath.Join [u.Path, a ++ ch '/' :: b] ++ tail } : GoUrl.URL).String =
      u.Scheme ++ utf8 "://" ++ u.Host ++ GoPath.rootedPath (es ++ [a, b]) ++
        GoUrl.escape tail .encodePath := by
  have hun' : ∀ x ∈ es ++ [a, b], ∀ c ∈ x, GoUrl.unreserved c := by
    intro x hx
    simp only [List.mem_append, List.mem_cons, List.mem_singleton, List.not_mem_nil,
      or_false] at hx
    rcases hx with hx | hx | hx
    · exact hun x hx
    · exact hx ▸ hua
    · exact hx ▸ hub
  have hhead : (GoPath.rootedPath (es ++ [a, b]) ++ tail).head? = some (ch '/') := by
    rcases es with _ | ⟨e, es⟩ <;> simp [GoPath.rootedPath]
  have hfin : ({ u with Path := GoPath.rootedPath (es ++ [a, b]) ++ tail } : GoUrl.URL).String =
      u.Scheme ++ utf8 "://" ++ u.Host ++ GoPath.rootedPath (es ++ [a, b]) ++
        GoUrl.escape tail .encodePath := by
    rw [GoUrl.URL.String_plain u hp _ hhead, GoUrl.escape_append,
      GoPath.escape_rootedPath _ hun']
    simp
  by_cases h : es ≠ [] ∨ 0 < k
  · rw [hpath, GoPath.Join_rootedPath es k a b hes ha hb h, hfin]
  · have h1 : es = [] := by
      by_contra hc
      exact h (Or.inl hc)
    have h2 : k = 0 := by
      by_contra hc
      exact h (Or.inr (Nat.pos_of_ne_zero hc))
    subst h1 h2
    have hj : GoPath.Join [u.Path, a ++ ch '/' :: b] = a ++ ch '/' :: b := by
      have hl : ¬ ((a ++ ch '/' :: b).length = 0) := by simp
      rw [hpath]
      simp [GoPath.Join, GoPath.joinBuf, GoPath.rootedPath, hclean]
    obtain ⟨c, t, hc⟩ : ∃ c t, a = c :: t := by
      cases a with
      | nil => exact absurd rfl ha.1
      | cons c t => exact ⟨c, t, rfl⟩
    have hc1 : c ≠ ch '/' := fun hx => ha.2.1 (by rw [hc]; simp [hx])
    have hc2 : c ≠ ch '*' := by
      intro hx
      have := hua c (by rw [hc]; simp)
      rw [hx] at this
      revert this
      decide
    have hlead := GoUrl.URL.String_leading_slash u (a ++ ch '/' :: b ++ tail) hp.2.2.2.1
      hp.2.2.2.2.2.1 (by rw [hc]; simpa using hc1) (by rw [hc]; simpa using hc2)
      (by rw [hc]; simp)
    have hr : GoPath.rootedPath ([] ++ [a, b]) ++ tail = ch '/' :: (a ++ ch '/' :: b ++ tail) := by
      simp [GoPath.rootedPath]
    rw [hj, ← hlead, ← hr]
    simpa using hfin

end JoinedPath

/-! ## Handlers -/

/-- With an expired token `file list` invokes no client operation and sends
no request, whatever its arguments. -/
theorem fileList_quiet_of_expired (deps : Deps) (g : Globals) (e : String)
    (hexp : deps.CheckTokenExpiration g.token = some e) :
    (handleFileListCommand deps g).calls = [] ∧
      (handleFileListCommand deps g).requests = [] := by
  unfold handleFileListCommand sliceFrom
  by_cases hl : 2 ≤ g.args.length
  · cases hp : parseArgs listFilesCmd.formal (g.args.drop 2) [] with
    | ok vals args =>
      by_cases h1 : vals.get "user" = "" <;>
      simp [hl, FlagSet.Parse, hp, Run.bind, Run.pure, h1, hexp, Run.calls, Run.requests]
    | fail msg =>
      simp [hl, FlagSet.Parse, hp, Run.bind, Run.pure, Run.calls, Run.requests, Run.emit, Run.exit,
        defaultUsage, printDefaults, List.filterMap_map]
    | help =>
      simp [hl, FlagSet.Parse, hp, Run.bind, Run.pure, Run.calls, Run.requests, Run.emit, Run.exit,
        defaultUsage, printDefaults, List.filterMap_map]
  · simp [hl, Run.bind, Run.panic, Run.calls, Run.requests]

/-- With an expired token `file ingest` invokes no client operation and sends
no request, whatever its arguments. -/
theorem fileIngest_quiet_of_expired (deps : Deps) (g : Globals) (e : String)
    (hexp : deps.CheckTokenExpiration g.token = some e) :
    (handleFileIngestCommand deps g).calls = [] ∧
      (handleFileIngestCommand deps g).requests = [] := by
  unfold handleFileIngestCommand sliceFrom
  by_cases hl : 2 ≤ g.args.length
  · cases hp : parseArgs fileIngestCmd.formal (g.args.drop 2) [] with
    | ok vals args =>
      by_cases h1 : vals.get "filepath" = "" ∨ vals.get "user" = ""
      · simp [hl, FlagSet.Parse, hp, Run.bind, Run.pure, h1, Run.calls, Run.requests]
      · cases hv : deps.CheckValidChars (vals.get "filepath") <;>
        simp [hl, FlagSet.Parse, hp, Run.bind, Run.pure, h1, hv, hexp, Run.calls, Run.requests]
    | fail msg =>
      simp [hl, FlagSet.Parse, hp, Run.bind, Run.pure, Run.calls, Run.requests, Run.emit, Run.exit,
        defaultUsage, printDefaults, List.filterMap_map]
    | help =>
      simp [hl, FlagSet.Parse, hp, Run.bind, Run.pure, Run.calls, Run.requests, Run.emit, Run.exit,
        defaultUsage, printDefaults, List.filterMap_map]
  · simp [hl, Run.bind, Run.panic, Run.calls, Run.requests]

/-- With an expired token `file set-accession` invokes no client operation
and sends no request, whatever its arguments. -/
theorem fileAccession_quiet_of_expired (deps : Deps) (g : Globals) (e : String)
    (hexp : deps.CheckTokenExpiration g.token = some e) :
    (handleFileAccessionCommand deps g).calls = [] ∧
      (handleFileAccessionCommand deps g).requests = [] := by
  unfold handleFileAccessionCommand sliceFrom
  by_cases hl : 2 ≤ g.args.length
  · cases hp : parseArgs fileAccessionCmd.formal (g.args.drop 2) [] with
    | ok vals args =>
      by_cases h1 : vals.get "filepath" = "" ∨ vals.get "user" = "" ∨ vals.get "accession-id" = ""
      · simp [hl, FlagSet.Parse, hp, Run.bind, Run.pure, h1, Run.calls, Run.requests]
      · cases hv : deps.CheckValidChars (vals.get "filepath") <;>
        simp [hl, FlagSet.Parse, hp, Run.bind, Run.pure, h1, hv, hexp, Run.calls, Run.requests]
    | fail msg =>
      simp [hl, FlagSet.Parse, hp, Run.bind, Run.pure, Run.calls, Run.requests, Run.emit, Run.exit,
        defaultUsage, printDefaults, List.filterMap_map]
    | help =>
      simp [hl, FlagSet.Parse, hp, Run.bind, Run.pure, Run.calls, Run.requests, Run.emit, Run.exit,
        defaultUsage, printDefaults, List.filterMap_map]
  · simp [hl, Run.bind, Run.panic, Run.calls, Run.requests]

/-- With an expired token `dataset create` invokes no client operation and
sends no request, whatever its arguments. -/
theorem datasetCreate_quiet_of_expired (deps : Deps) (g : Globals) (e : String)
    (hexp : deps.CheckTokenExpiration g.token = some e) :
    (handleDatasetCreateCommand deps g).calls = [] ∧
      (handleDatasetCreateCommand deps g).requests = [] := by
  unfold handleDatasetCreateCommand sliceFrom
  by_cases hl : 2 ≤ g.args.length
  · cases hp : parseArgs datasetCreateCmd.formal (g.args.drop 2) [] with
    | ok vals args =>
      by_cases h1 : vals.get "dataset-id" = "" ∨ args = [] <;>
      simp [hl, FlagSet.Parse, hp, Run.bind, Run.pure, h1, hexp, Run.calls, Run.requests]
    | fail msg =>
      simp [hl, FlagSet.Parse, hp, Run.bind, Run.pure, Run.calls, Run.requests, Run.emit, Run.exit,
        defaultUsage, printDefaults, List.filterMap_map]
    | help =>
      simp [hl, FlagSet.Parse, hp, Run.bind, Run.pure, Run.calls, Run.requests, Run.emit, Run.exit,
        defaultUsage, printDefaults, List.filterMap_map]
  · simp [hl, Run.bind, Run.panic, Run.calls, Run.requests]

/-- With an expired token `dataset release` invokes no client operation and
sends no request, whatever its arguments. -/
theorem datasetRelease_quiet_of_expired (deps : Deps) (g : Globals) (e : String)
    (hexp : deps.CheckTokenExpiration g.token = some e) :
    (handleDatasetReleaseCommand deps g).calls = [] ∧
      (handleDatasetReleaseCommand deps g).requests = [] := by
  unfold handleDatasetReleaseCommand sliceFrom
  by_cases hl : 2 ≤ g.args.length
  · cases hp : parseArgs datasetReleaseCmd.formal (g.args.drop 2) [] with
    | ok vals args =>
      by_cases h1 : vals.get "dataset-id" = "" <;>
      simp [hl, FlagSet.Parse, hp, Run.bind, Run.pure, h1, hexp, Run.calls, Run.requests]
    | fail msg =>
      simp [hl, FlagSet.Parse, hp, Run.bind, Run.pure, Run.calls, Run.requests, Run.emit, Run.exit,
        defaultUsage, printDefaults, List.filterMap_map]
    | help =>
      simp [hl, FlagSet.Parse, hp, Run.bind, Run.pure, Run.calls, Run.requests, Run.emit, Run.exit,
        defaultUsage, printDefaults, List.filterMap_map]
  · simp [hl, Run.bind, Run.panic, Run.calls, Run.requests]

/-- With an expired token the `user` command invokes no client operation
and sends no request, whatever its arguments. -/
theorem user_quiet_of_expired (deps : Deps) (g : Globals) (e : String)
    (hexp : deps.CheckTokenExpiration g.token = some e) :
    (handleUserCommand deps g).calls = [] ∧ (handleUserCommand deps g).requests = [] := by
  unfold handleUserCommand
  by_cases h1 : g.NArg < 2 <;> by_cases h2 : g.Arg 1 = "list" <;>
  simp [h1, h2, hexp, Run.pure, Run.calls, Run.requests]

/-- The `file` command with a subcommand present dispatches on it. -/
theorem handleFileCommand_cons (deps : Deps) (apiURI token a0 sub : String)
    (rest : List String) :
    handleFileCommand deps ⟨apiURI, token, a0 :: sub :: rest⟩ =
      if sub = "list" then handleFileListCommand deps ⟨apiURI, token, a0 :: sub :: rest⟩
      else if sub = "ingest" then handleFileIngestCommand deps ⟨apiURI, token, a0 :: sub :: rest⟩
      else if sub = "set-accession" then
        handleFileAccessionCommand deps ⟨apiURI, token, a0 :: sub :: rest⟩
      else
        Run.pure (some ("Unknown subcommand '" ++ sub ++ "' for '" ++ a0 ++ "'.\n" ++ fileUsage)) := by
  have hl : ¬ ((⟨apiURI, token, a0 :: sub :: rest⟩ : Globals).NArg < 2) := by
    simp [Globals.NArg]
  unfold handleFileCommand
  rw [if_neg hl]
  simp [Globals.Arg]

/-- The `dataset` command with a subcommand present dispatches on it. -/
theorem handleDatasetCommand_cons (deps : Deps) (apiURI token a0 sub : String)
    (rest : List String) :
    handleDatasetCommand deps ⟨apiURI, token, a0 :: sub :: rest⟩ =
      if sub = "create" then handleDatasetCreateCommand deps ⟨apiURI, token, a0 :: sub :: rest⟩
      else if sub = "release" then
        handleDatasetReleaseCommand deps ⟨apiURI, token, a0 :: sub :: rest⟩
      else
        Run.pure (some ("Unknown subcommand '" ++ sub ++ "' for '" ++ a0 ++ "'.\n" ++
          datasetUsage)) := by
  have hl : ¬ ((⟨apiURI, token, a0 :: sub :: rest⟩ : Globals).NArg < 2) := by
    simp [Globals.NArg]
  unfold handleDatasetCommand
  rw [if_neg hl]
  simp [Globals.Arg]

/-- The `user list` command: the token check, then the client operation. -/
theorem handleUserCommand_list (deps : Deps) (apiURI token a0 : String) (rest : List String) :
    handleUserCommand deps ⟨apiURI, token, a0 :: "list" :: rest⟩ =
      match deps.CheckTokenExpiration token with
      | some err => Run.pure (some err)
      | none =>
        ⟨[.call (.userList apiURI token)],
          .ret (match deps.userList apiURI token with
            | some err => some ("Error: failed to get users, reason: " ++ err ++ "\n")
            | none => none)⟩ := by
  have hl : ¬ ((⟨apiURI, token, a0 :: "list" :: rest⟩ : Globals).NArg < 2) := by
    simp [Globals.NArg]
  unfold handleUserCommand
  rw [if_neg hl]
  cases h1 : deps.CheckTokenExpiration token <;> cases h2 : deps.userList apiURI token <;>
    simp [Globals.Arg, h1, h2, Run.bind, Run.pure, Run.emit]

/-! ## The claims -/

/-- C6. `help dataset create` writes exactly the dataset-create usage block
(to standard error, and nothing else anywhere) and exits with status 0,
whatever the `-uri` and `-token` flags, the environment and the other
collaborators are: for every argument vector whose global flags parse and
leave the positional arguments `help dataset create`, the whole run is this
one write followed by exit status 0. -/
theorem C6_help_dataset_create (deps : Deps) (argv : List String) (vals : Values)
    (h : parseArgs commandLine.formal argv [] = .ok vals ["help", "dataset", "create"]) :
    main deps argv = ⟨[.stderr datasetCreateUsage], .exit 0⟩ := by
  simp [main, parseFlagsAndEnv, FlagSet.Parse_ok _ _ _ _ _ h, Run.bind, Run.pure, Globals.NArg,
    Globals.Arg, exitOnError, handleHelpCommand, handleHelpDataset, Run.emit, Run.exit]

/-- C6, witness: with both flags given as empty strings and an empty
environment. -/
theorem C6_help_dataset_create_witness :
    parseArgs commandLine.formal ["-uri", "", "-token", "", "help", "dataset", "create"] [] =
        .ok [("token", ""), ("uri", "")] ["help", "dataset", "create"] ∧
      main sampleDeps ["-uri", "", "-token", "", "help", "dataset", "create"] =
        ⟨[.stderr datasetCreateUsage], .exit 0⟩ :=
  ⟨rfl, C6_help_dataset_create sampleDeps _ _ rfl⟩

/-- The global flags may be given any values: `-uri u -token t` followed by
`help dataset create` always parses to those positional arguments. -/
theorem parse_help_dataset_create (u t : String) :
    parseArgs commandLine.formal ["-uri", u, "-token", t, "help", "dataset", "create"] [] =
      .ok [("token", t), ("uri", u)] ["help", "dataset", "create"] := rfl

/-- C5, counterexample.  With no `-token`, no `-uri` and an empty
environment, `version` ends with exit status 1 after the configuration
error, and `help` with an unknown topic ends with exit status 1. -/
theorem C5_counterexample :
    main sampleDeps ["version"] =
        ⟨[.stderr ("error: either -uri must be provided or API_HOST environment variable " ++
          "must be set." ++ "\n")], .exit 1⟩ ∧
      (main sampleDeps ["help", "nosuchtopic"]).status = .exit 1 := by
  constructor
  · decide
  · decide

/-- C5, amended.  `help` with no topic or with a known topic exits with
status 0 without any client operation or request, whatever URI and token are
configured (none is needed).  `version` never checks the token for expiry:
when a URI and a token are configured, by flag or environment, it writes the
version line and exits with status 0; when either is absent it exits with
status 1 after writing the configuration error to standard error, and
nothing else: the error about the URI when no URI is configured, else the
error about the token. -/
theorem C5_help_version_amended (deps : Deps) (argv : List String) (vals : Values)
    (rest : List String) :
    (parseArgs commandLine.formal argv [] = .ok vals ("help" :: rest) →
      (rest = [] ∨ rest = ["user"] ∨ (∃ t, rest = "user" :: "list" :: t) ∨
        rest = ["file"] ∨ (∃ t, rest = "file" :: "list" :: t) ∨
        (∃ t, rest = "file" :: "ingest" :: t) ∨ (∃ t, rest = "file" :: "set-accession" :: t) ∨
        rest = ["dataset"] ∨ (∃ t, rest = "dataset" :: "create" :: t) ∨
        (∃ t, rest = "dataset" :: "release" :: t) ∨ (∃ t, rest = "version" :: t)) →
      (main deps argv).status = .exit 0 ∧ (main deps argv).calls = [] ∧
        (main deps argv).requests = []) ∧
    (parseArgs commandLine.formal argv [] = .ok vals ("version" :: rest) →
      ((vals.get "uri" ≠ "" ∨ deps.getenv "API_HOST" ≠ "") →
        (vals.get "token" ≠ "" ∨ deps.getenv "ACCESS_TOKEN" ≠ "") →
        main deps argv = ⟨[.stdout "sda-admin version 1.0.0\n"], .exit 0⟩) ∧
      ((vals.get "uri" = "" ∧ deps.getenv "API_HOST" = "") ∨
          (vals.get "token" = "" ∧ deps.getenv "ACCESS_TOKEN" = "") →
        (main deps argv).status = .exit 1) ∧
      (vals.get "uri" = "" ∧ deps.getenv "API_HOST" = "" →
        main deps argv =
          ⟨[.stderr ("error: either -uri must be provided or API_HOST environment variable " ++
            "must be set." ++ "\n")], .exit 1⟩) ∧
      ((vals.get "uri" ≠ "" ∨ deps.getenv "API_HOST" ≠ "") →
        vals.get "token" = "" ∧ deps.getenv "ACCESS_TOKEN" = "" →
        main deps argv =
          ⟨[.stderr ("error: either -token must be provided or ACCESS_TOKEN environment " ++
            "variable must be set." ++ "\n")], .exit 1⟩)) := by
  refine ⟨fun h hrest => ?_, fun h => ⟨fun hu ht => ?_, fun habs => ?_, fun habs => ?_,
    fun hu habs => ?_⟩⟩
  · rcases hrest with h1 | h1 | ⟨t, h1⟩ | h1 | ⟨t, h1⟩ | ⟨t, h1⟩ | ⟨t, h1⟩ | h1 | ⟨t, h1⟩ |
      ⟨t, h1⟩ | ⟨t, h1⟩ <;> subst h1 <;>
    simp [main, parseFlagsAndEnv_help _ _ _ _ h, Run.bind, Run.pure, Globals.NArg,
      Globals.Arg, exitOnError, handleHelpCommand, handleHelpDataset, handleHelpUser,
      handleHelpFile, Run.emit, Run.exit, Run.calls, Run.requests]
  · have hu1 : ¬ (if vals.get "uri" = "" then deps.getenv "API_HOST" else vals.get "uri") = "" := by
      by_cases h1 : vals.get "uri" = "" <;> simp_all
    have ht1 : ¬ (if vals.get "token" = "" then deps.getenv "ACCESS_TOKEN" else vals.get "token")
        = "" := by
      by_cases h1 : vals.get "token" = "" <;> simp_all
    simp [main, parseFlagsAndEnv_command _ _ _ _ _ h (by decide), hu1, ht1, Run.bind, Run.pure,
      Globals.Arg, exitOnError, printVersion, Run.emit, Run.exit, version]
  · by_cases hu1 : (if vals.get "uri" = "" then deps.getenv "API_HOST" else vals.get "uri") = ""
    · simp [main, parseFlagsAndEnv_command _ _ _ _ _ h (by decide), hu1, Run.bind, Run.pure,
        exitOnError, Run.emit, Run.exit]
    · have ht1 : (if vals.get "token" = "" then deps.getenv "ACCESS_TOKEN" else vals.get "token")
          = "" := by
        rcases habs with ⟨a, b⟩ | ⟨a, b⟩
        · simp [a, b] at hu1
        · simp [a, b]
      simp [main, parseFlagsAndEnv_command _ _ _ _ _ h (by decide), hu1, ht1, Run.bind, Run.pure,
        exitOnError, Run.emit, Run.exit]
  · have hu1 : (if vals.get "uri" = "" then deps.getenv "API_HOST" else vals.get "uri") = "" := by
      simp [habs.1, habs.2]
    simp [main, parseFlagsAndEnv_command _ _ _ _ _ h (by decide), hu1, Run.bind, Run.pure,
      exitOnError, Run.emit, Run.exit]
  · have hu1 : ¬ (if vals.get "uri" = "" then deps.getenv "API_HOST" else vals.get "uri") = "" := by
      by_cases h1 : vals.get "uri" = "" <;> simp_all
    have ht1 : (if vals.get "token" = "" then deps.getenv "ACCESS_TOKEN" else vals.get "token")
        = "" := by
      simp [habs.1, habs.2]
    simp [main, parseFlagsAndEnv_command _ _ _ _ _ h (by decide), hu1, ht1, Run.bind, Run.pure,
      exitOnError, Run.emit, Run.exit]

/-- C5, witness of the amendment: `help file ingest`, `version` with an
expired token, and `version` with a URI but no token. -/
theorem C5_help_version_amended_witness :
    (main sampleDeps ["help", "file", "ingest"]).status = .exit 0 ∧
      main sampleDeps ["-uri", "http://api.example", "-token", "expired", "version"] =
        ⟨[.stdout "sda-admin version 1.0.0\n"], .exit 0⟩ ∧
      main sampleDeps ["-uri", "http://api.example", "version"] =
        ⟨[.stderr ("error: either -token must be provided or ACCESS_TOKEN environment " ++
          "variable must be set." ++ "\n")], .exit 1⟩ :=
  ⟨((C5_help_version_amended sampleDeps ["help", "file", "ingest"] [] ["file", "ingest"]).1 rfl
      (Or.inr (Or.inr (Or.inr (Or.inr (Or.inr (Or.inl ⟨[], rfl⟩))))))).1,
   ((C5_help_version_amended sampleDeps
      ["-uri", "http://api.example", "-token", "expired", "version"]
      [("token", "expired"), ("uri", "http://api.example")] []).2 rfl).1
      (Or.inl (by decide)) (Or.inl (by decide)),
   ((C5_help_version_amended sampleDeps ["-uri", "http://api.example", "version"]
      [("uri", "http://api.example")] []).2 rfl).2.2.2
      (Or.inl (by decide)) ⟨rfl, rfl⟩⟩

/-- C7, the failing input `sda-admin -- -h` with neither flag given and an
empty environment.  Its first positional argument is `-h`, which `main`
dispatches to the help handler like `help`; `parseFlagsAndEnv` nevertheless
attempts the resolution and returns the configuration error, so the run ends
with exit status 1, whereas `help` in the same setting prints the usage and
exits with status 0. -/
theorem C7_dash_h_attempts_resolution :
    parseFlagsAndEnv sampleDeps ["--", "-h"] =
        ⟨[], .ret (some ("error: either -uri must be provided or API_HOST environment " ++
          "variable must be set."), ⟨"", "", ["-h"]⟩)⟩ ∧
      (main sampleDeps ["--", "-h"]).status = .exit 1 ∧
      handleHelpCommand ⟨"", "", ["-h"]⟩ = ⟨[.stderr usage], .ret none⟩ ∧
      main sampleDeps ["help"] = ⟨[.stderr usage], .exit 0⟩ := by
  refine ⟨by decide, by decide, rfl, rfl⟩

/-- C3. `dataset create` whose arguments hold flags only, so that no
accession ID is left after them, returns the validation error and does
nothing else: no client operation is invoked and no request is sent, for
every dataset ID, base URI, token and collaborators. -/
theorem C3_dataset_create_without_accession_ids (deps : Deps) (apiURI token a0 a1 : String)
    (rest : List String) (vals : Values)
    (h : parseArgs datasetCreateCmd.formal rest [] = .ok vals []) :
    handleDatasetCreateCommand deps ⟨apiURI, token, a0 :: a1 :: rest⟩ =
      ⟨[], .ret (some ("Error: -dataset-id and at least one accession ID are required.\n" ++
        datasetCreateUsage))⟩ := by
  simp [handleDatasetCreateCommand, sliceFrom, FlagSet.Parse_ok _ _ _ _ _ h, Run.bind, Run.pure]

/-- C3, witness: `dataset create -dataset-id DS1`. -/
theorem C3_dataset_create_without_accession_ids_witness :
    parseArgs datasetCreateCmd.formal ["-dataset-id", "DS1"] [] = .ok [("dataset-id", "DS1")] [] ∧
      handleDatasetCreateCommand sampleDeps
          ⟨"http://api.example", "t", ["dataset", "create", "-dataset-id", "DS1"]⟩ =
        ⟨[], .ret (some ("Error: -dataset-id and at least one accession ID are required.\n" ++
          datasetCreateUsage))⟩ :=
  ⟨rfl, C3_dataset_create_without_accession_ids sampleDeps _ _ _ _ _ _ rfl⟩

/-- C4. When the token-expiry check reports the error `e`, each of the
commands `user list`, `file list`, `file ingest`, `file set-accession`,
`dataset create` and `dataset release` invokes no client operation and sends
no request, whatever its arguments; and whenever the arguments pass the
command's validation, so that the check is reached, the handler does nothing
but return `e` itself. -/
theorem C4_expired_token (deps : Deps) (apiURI token e a0 a1 : String) (rest : List String)
    (vals : Values) (args : List String)
    (hexp : deps.CheckTokenExpiration token = some e) :
    -- user list
    ((handleUserCommand deps ⟨apiURI, token, a0 :: a1 :: rest⟩).calls = [] ∧
      (handleUserCommand deps ⟨apiURI, token, a0 :: a1 :: rest⟩).requests = [] ∧
      handleUserCommand deps ⟨apiURI, token, a0 :: "list" :: rest⟩ = ⟨[], .ret (some e)⟩) ∧
    -- file list
    ((handleFileListCommand deps ⟨apiURI, token, a0 :: a1 :: rest⟩).calls = [] ∧
      (handleFileListCommand deps ⟨apiURI, token, a0 :: a1 :: rest⟩).requests = [] ∧
      (parseArgs listFilesCmd.formal rest [] = .ok vals args → vals.get "user" ≠ "" →
        handleFileListCommand deps ⟨apiURI, token, a0 :: a1 :: rest⟩ = ⟨[], .ret (some e)⟩)) ∧
    -- file ingest
    ((handleFileIngestCommand deps ⟨apiURI, token, a0 :: a1 :: rest⟩).calls = [] ∧
      (handleFileIngestCommand deps ⟨apiURI, token, a0 :: a1 :: rest⟩).requests = [] ∧
      (parseArgs fileIngestCmd.formal rest [] = .ok vals args →
        vals.get "filepath" ≠ "" → vals.get "user" ≠ "" →
        deps.CheckValidChars (vals.get "filepath") = none →
        handleFileIngestCommand deps ⟨apiURI, token, a0 :: a1 :: rest⟩ = ⟨[], .ret (some e)⟩)) ∧
    -- file set-accession
    ((handleFileAccessionCommand deps ⟨apiURI, token, a0 :: a1 :: rest⟩).calls = [] ∧
      (handleFileAccessionCommand deps ⟨apiURI, token, a0 :: a1 :: rest⟩).requests = [] ∧
      (parseArgs fileAccessionCmd.formal rest [] = .ok vals args →
        vals.get "filepath" ≠ "" → vals.get "user" ≠ "" → vals.get "accession-id" ≠ "" →
        deps.CheckValidChars (vals.get "filepath") = none →
        handleFileAccessionCommand deps ⟨apiURI, token, a0 :: a1 :: rest⟩ =
          ⟨[], .ret (some e)⟩)) ∧
    -- dataset create
    ((handleDatasetCreateCommand deps ⟨apiURI, token, a0 :: a1 :: rest⟩).calls = [] ∧
      (handleDatasetCreateCommand deps ⟨apiURI, token, a0 :: a1 :: rest⟩).requests = [] ∧
      (parseArgs datasetCreateCmd.formal rest [] = .ok vals args →
        vals.get "dataset-id" ≠ "" → args ≠ [] →
        handleDatasetCreateCommand deps ⟨apiURI, token, a0 :: a1 :: rest⟩ =
          ⟨[], .ret (some e)⟩)) ∧
    -- dataset release
    ((handleDatasetReleaseCommand deps ⟨apiURI, token, a0 :: a1 :: rest⟩).calls = [] ∧
      (handleDatasetReleaseCommand deps ⟨apiURI, token, a0 :: a1 :: rest⟩).requests = [] ∧
      (parseArgs datasetReleaseCmd.formal rest [] = .ok vals args →
        vals.get "dataset-id" ≠ "" →
        handleDatasetReleaseCommand deps ⟨apiURI, token, a0 :: a1 :: rest⟩ =
          ⟨[], .ret (some e)⟩)) := by
  refine ⟨⟨?_, ?_, ?_⟩, ⟨?_, ?_, ?_⟩, ⟨?_, ?_, ?_⟩, ⟨?_, ?_, ?_⟩, ⟨?_, ?_, ?_⟩, ⟨?_, ?_, ?_⟩⟩
  · exact (user_quiet_of_expired deps ⟨apiURI, token, _⟩ e hexp).1
  · exact (user_quiet_of_expired deps ⟨apiURI, token, _⟩ e hexp).2
  · simp [handleUserCommand_list, hexp, Run.pure]
  · exact (fileList_quiet_of_expired deps ⟨apiURI, token, _⟩ e hexp).1
  · exact (fileList_quiet_of_expired deps ⟨apiURI, token, _⟩ e hexp).2
  · intro hp h1
    simp [handleFileListCommand, sliceFrom, FlagSet.Parse_ok _ _ _ _ _ hp, Run.bind, Run.pure,
      h1, hexp]
  · exact (fileIngest_quiet_of_expired deps ⟨apiURI, token, _⟩ e hexp).1
  · exact (fileIngest_quiet_of_expired deps ⟨apiURI, token, _⟩ e hexp).2
  · intro hp h1 h2 h3
    simp [handleFileIngestCommand, sliceFrom, FlagSet.Parse_ok _ _ _ _ _ hp, Run.bind, Run.pure,
      h1, h2, h3, hexp]
  · exact (fileAccession_quiet_of_expired deps ⟨apiURI, token, _⟩ e hexp).1
  · exact (fileAccession_quiet_of_expired deps ⟨apiURI, token, _⟩ e hexp).2
  · intro hp h1 h2 h3 h4
    simp [handleFileAccessionCommand, sliceFrom, FlagSet.Parse_ok _ _ _ _ _ hp, Run.bind,
      Run.pure, h1, h2, h3, h4, hexp]
  · exact (datasetCreate_quiet_of_expired deps ⟨apiURI, token, _⟩ e hexp).1
  · exact (datasetCreate_quiet_of_expired deps ⟨apiURI, token, _⟩ e hexp).2
  · intro hp h1 h2
    simp [handleDatasetCreateCommand, sliceFrom, FlagSet.Parse_ok _ _ _ _ _ hp, Run.bind,
      Run.pure, h1, h2, hexp]
  · exact (datasetRelease_quiet_of_expired deps ⟨apiURI, token, _⟩ e hexp).1
  · exact (datasetRelease_quiet_of_expired deps ⟨apiURI, token, _⟩ e hexp).2
  · intro hp h1
    simp [handleDatasetReleaseCommand, sliceFrom, FlagSet.Parse_ok _ _ _ _ _ hp, Run.bind,
      Run.pure, h1, hexp]

/-- C4, witness: with the expired sample token, `file ingest -filepath
/data/a.txt -user alice` returns the expiry error and nothing else happens,
also when run through `main`. -/
theorem C4_expired_token_witness :
    sampleDeps.CheckTokenExpiration "expired" = some "token has expired" ∧
      handleFileIngestCommand sampleDeps ⟨"http://api.example", "expired",
          ["file", "ingest", "-filepath", "/data/a.txt", "-user", "alice"]⟩ =
        ⟨[], .ret (some "token has expired")⟩ ∧
      main sampleDeps ["-uri", "http://api.example", "-token", "expired",
          "file", "ingest", "-filepath", "/data/a.txt", "-user", "alice"] =
        ⟨[.stderr "token has expired\n"], .exit 1⟩ :=
  ⟨rfl,
   (C4_expired_token sampleDeps "http://api.example" "expired" "token has expired" "file" "ingest"
      ["-filepath", "/data/a.txt", "-user", "alice"]
      [("user", "alice"), ("filepath", "/data/a.txt")] [] rfl).2.2.1.2.2
      rfl (by decide) (by decide) (by decide),
   by decide⟩

set_option maxRecDepth 8000 in
/-- C8, counterexample.  `file ingest` with a newline in the file path fails
before any client operation, but the error it returns is the one of the
character check, which does not contain the usage block of `file ingest`. -/
theorem C8_counterexample :
    handleFileIngestCommand sampleDeps ⟨"http://api.example", "t",
        ["file", "ingest", "-filepath", "/data/a\nb.txt", "-user", "alice"]⟩ =
      ⟨[], .ret (some "filepath contains disallowed characters")⟩ ∧
    ¬ (fileIngestUsage.toList <:+: "filepath contains disallowed characters".toList) := by
  refine ⟨by decide, fun h => ?_⟩
  have hlen := h.length_le
  revert hlen
  decide

/-- C8, amended.  A missing required flag or an empty accession-ID list makes
the handler return, before anything else happens, an error that is an
explanatory line followed by the usage block of the subcommand; a file path
that fails the character check makes it return the error of the check
unchanged.  In every one of these cases no client operation is invoked and
no request is sent (the run has no event at all). -/
theorem C8_validation_errors_amended (deps : Deps) (apiURI token a0 a1 e : String)
    (rest : List String) (vals : Values) (args : List String) :
    (parseArgs listFilesCmd.formal rest [] = .ok vals args → vals.get "user" = "" →
      handleFileListCommand deps ⟨apiURI, token, a0 :: a1 :: rest⟩ =
        ⟨[], .ret (some ("Error: the -user flag is required.\n" ++ fileListUsage))⟩) ∧
    (parseArgs fileIngestCmd.formal rest [] = .ok vals args →
      vals.get "filepath" = "" ∨ vals.get "user" = "" →
      handleFileIngestCommand deps ⟨apiURI, token, a0 :: a1 :: rest⟩ =
        ⟨[], .ret (some ("Error: both -filepath and -user are required.\n" ++
          fileIngestUsage))⟩) ∧
    (parseArgs fileAccessionCmd.formal rest [] = .ok vals args →
      vals.get "filepath" = "" ∨ vals.get "user" = "" ∨ vals.get "accession-id" = "" →
      handleFileAccessionCommand deps ⟨apiURI, token, a0 :: a1 :: rest⟩ =
        ⟨[], .ret (some ("Error: -filepath, -user, and -accession-id are required.\n" ++
          fileAccessionUsage))⟩) ∧
    (parseArgs datasetCreateCmd.formal rest [] = .ok vals args →
      vals.get "dataset-id" = "" ∨ args = [] →
      handleDatasetCreateCommand deps ⟨apiURI, token, a0 :: a1 :: rest⟩ =
        ⟨[], .ret (some ("Error: -dataset-id and at least one accession ID are required.\n" ++
          datasetCreateUsage))⟩) ∧
    (parseArgs datasetReleaseCmd.formal rest [] = .ok vals args → vals.get "dataset-id" = "" →
      handleDatasetReleaseCommand deps ⟨apiURI, token, a0 :: a1 :: rest⟩ =
        ⟨[], .ret (some ("Error: -dataset-id is required.\n" ++ datasetReleaseUsage))⟩) ∧
    (parseArgs fileIngestCmd.formal rest [] = .ok vals args →
      vals.get "filepath" ≠ "" → vals.get "user" ≠ "" →
      deps.CheckValidChars (vals.get "filepath") = some e →
      handleFileIngestCommand deps ⟨apiURI, token, a0 :: a1 :: rest⟩ = ⟨[], .ret (some e)⟩) ∧
    (parseArgs fileAccessionCmd.formal rest [] = .ok vals args →
      vals.get "filepath" ≠ "" → vals.get "user" ≠ "" → vals.get "accession-id" ≠ "" →
      deps.CheckValidChars (vals.get "filepath") = some e →
      handleFileAccessionCommand deps ⟨apiURI, token, a0 :: a1 :: rest⟩ =
        ⟨[], .ret (some e)⟩) := by
  refine ⟨?_, ?_, ?_, ?_, ?_, ?_, ?_⟩
  · intro hp h1
    simp [handleFileListCommand, sliceFrom, FlagSet.Parse_ok _ _ _ _ _ hp, Run.bind, Run.pure, h1]
  · intro hp h1
    simp [handleFileIngestCommand, sliceFrom, FlagSet.Parse_ok _ _ _ _ _ hp, Run.bind, Run.pure,
      h1]
  · intro hp h1
    simp [handleFileAccessionCommand, sliceFrom, FlagSet.Parse_ok _ _ _ _ _ hp, Run.bind,
      Run.pure, h1]
  · intro hp h1
    simp [handleDatasetCreateCommand, sliceFrom, FlagSet.Parse_ok _ _ _ _ _ hp, Run.bind,
      Run.pure, h1]
  · intro hp h1
    simp [handleDatasetReleaseCommand, sliceFrom, FlagSet.Parse_ok _ _ _ _ _ hp, Run.bind,
      Run.pure, h1]
  · intro hp h1 h2 h3
    simp [handleFileIngestCommand, sliceFrom, FlagSet.Parse_ok _ _ _ _ _ hp, Run.bind, Run.pure,
      h1, h2, h3]
  · intro hp h1 h2 h3 h4
    simp [handleFileAccessionCommand, sliceFrom, FlagSet.Parse_ok _ _ _ _ _ hp, Run.bind,
      Run.pure, h1, h2, h3, h4]

/-- C8, witness of the amendment: `file ingest` without `-user`, and `file
set-accession` with a newline in the file path. -/
theorem C8_validation_errors_amended_witness :
    handleFileIngestCommand sampleDeps
        ⟨"http://api.example", "t", ["file", "ingest", "-filepath", "/data/a.txt"]⟩ =
      ⟨[], .ret (some ("Error: both -filepath and -user are required.\n" ++ fileIngestUsage))⟩ ∧
    handleFileAccessionCommand sampleDeps ⟨"http://api.example", "t",
        ["file", "set-accession", "-filepath", "/data/a\nb.txt", "-user", "alice",
          "-accession-id", "ACC1"]⟩ =
      ⟨[], .ret (some "filepath contains disallowed characters")⟩ :=
  ⟨(C8_validation_errors_amended sampleDeps "http://api.example" "t" "file" "ingest" ""
      ["-filepath", "/data/a.txt"] [("filepath", "/data/a.txt")] []).2.1 rfl (Or.inr rfl),
   (C8_validation_errors_amended sampleDeps "http://api.example" "t" "file" "set-accession"
      "filepath contains disallowed characters"
      ["-filepath", "/data/a\nb.txt", "-user", "alice", "-accession-id", "ACC1"]
      [("accession-id", "ACC1"), ("user", "alice"), ("filepath", "/data/a\nb.txt")] []).2.2.2.2.2.2
      rfl (by decide) (by decide) (by decide) (by decide)⟩

/-- C9. An error `e` returned by a resource client is reported with the
failed action and the reason, and ends the run with exit status 1.  For
`file set-accession`, and likewise `file ingest`, `file list`, `user list`,
`dataset create` and `dataset release`: when the arguments are valid, the
token is not expired and the client operation fails with `e`, the handler
returns the error whose message is the action's own opening words followed
by `e` (and a final newline); nothing is written to standard output, so no
success line appears; and `main` writes that message to standard error and
exits with status 1. -/
theorem C9_client_error_reported (deps : Deps) (argv : List String) (apiURI token e : String)
    (rest : List String) (vals : Values) (args : List String) (t : List Event)
    (htok : deps.CheckTokenExpiration token = none) :
    -- file set-accession
    (parseFlagsAndEnv deps argv =
        ⟨[], .ret (none, ⟨apiURI, token, "file" :: "set-accession" :: rest⟩)⟩ →
      parseArgs fileAccessionCmd.formal rest [] = .ok vals args →
      vals.get "filepath" ≠ "" → vals.get "user" ≠ "" → vals.get "accession-id" ≠ "" →
      deps.CheckValidChars (vals.get "filepath") = none →
      deps.fileSetAccession apiURI token (vals.get "user") (vals.get "filepath")
        (vals.get "accession-id") = some e →
      handleFileAccessionCommand deps ⟨apiURI, token, "file" :: "set-accession" :: rest⟩ =
          ⟨[.call (.fileSetAccession apiURI token (vals.get "user") (vals.get "filepath")
              (vals.get "accession-id"))],
            .ret (some ("Error: failed to assign accession ID to file, reason: " ++ e ++ "\n"))⟩ ∧
        main deps argv =
          ⟨[.call (.fileSetAccession apiURI token (vals.get "user") (vals.get "filepath")
              (vals.get "accession-id")),
            .stderr ("Error: failed to assign accession ID to file, reason: " ++ e ++ "\n" ++
              "\n")], .exit 1⟩) ∧
    -- file ingest
    (parseFlagsAndEnv deps argv =
        ⟨[], .ret (none, ⟨apiURI, token, "file" :: "ingest" :: rest⟩)⟩ →
      parseArgs fileIngestCmd.formal rest [] = .ok vals args →
      vals.get "filepath" ≠ "" → vals.get "user" ≠ "" →
      deps.CheckValidChars (vals.get "filepath") = none →
      deps.fileIngest apiURI token (vals.get "user") (vals.get "filepath") = some e →
      handleFileIngestCommand deps ⟨apiURI, token, "file" :: "ingest" :: rest⟩ =
          ⟨[.call (.fileIngest apiURI token (vals.get "user") (vals.get "filepath"))],
            .ret (some ("Error: failed to ingest file, reason: " ++ e ++ "\n"))⟩ ∧
        main deps argv =
          ⟨[.call (.fileIngest apiURI token (vals.get "user") (vals.get "filepath")),
            .stderr ("Error: failed to ingest file, reason: " ++ e ++ "\n" ++ "\n")],
            .exit 1⟩) ∧
    -- file list
    (parseFlagsAndEnv deps argv =
        ⟨[], .ret (none, ⟨apiURI, token, "file" :: "list" :: rest⟩)⟩ →
      parseArgs listFilesCmd.formal rest [] = .ok vals args →
      vals.get "user" ≠ "" →
      deps.fileList apiURI token (vals.get "user") = some e →
      handleFileListCommand deps ⟨apiURI, token, "file" :: "list" :: rest⟩ =
          ⟨[.call (.fileList apiURI token (vals.get "user"))],
            .ret (some ("Error: failed to get files, reason: " ++ e ++ "\n"))⟩ ∧
        main deps argv =
          ⟨[.call (.fileList apiURI token (vals.get "user")),
            .stderr ("Error: failed to get files, reason: " ++ e ++ "\n" ++ "\n")], .exit 1⟩) ∧
    -- user list
    (parseFlagsAndEnv deps argv = ⟨[], .ret (none, ⟨apiURI, token, "user" :: "list" :: rest⟩)⟩ →
      deps.userList apiURI token = some e →
      handleUserCommand deps ⟨apiURI, token, "user" :: "list" :: rest⟩ =
          ⟨[.call (.userList apiURI token)],
            .ret (some ("Error: failed to get users, reason: " ++ e ++ "\n"))⟩ ∧
        main deps argv =
          ⟨[.call (.userList apiURI token),
            .stderr ("Error: failed to get users, reason: " ++ e ++ "\n" ++ "\n")], .exit 1⟩) ∧
    -- dataset create
    (parseFlagsAndEnv deps argv =
        ⟨[], .ret (none, ⟨apiURI, token, "dataset" :: "create" :: rest⟩)⟩ →
      parseArgs datasetCreateCmd.formal rest [] = .ok vals args →
      vals.get "dataset-id" ≠ "" → args ≠ [] →
      Dataset.Create deps apiURI token (vals.get "dataset-id") deps.createUsername args =
        ⟨t, .ret (some e)⟩ →
      handleDatasetCreateCommand deps ⟨apiURI, token, "dataset" :: "create" :: rest⟩ =
          ⟨.call (.datasetCreate apiURI token (vals.get "dataset-id") args) :: t,
            .ret (some ("Error: failed to create dataset, reason: " ++ e ++ "\n"))⟩ ∧
        main deps argv =
          ⟨.call (.datasetCreate apiURI token (vals.get "dataset-id") args) :: t ++
            [.stderr ("Error: failed to create dataset, reason: " ++ e ++ "\n" ++ "\n")],
            .exit 1⟩) ∧
    -- dataset release
    (parseFlagsAndEnv deps argv =
        ⟨[], .ret (none, ⟨apiURI, token, "dataset" :: "release" :: rest⟩)⟩ →
      parseArgs datasetReleaseCmd.formal rest [] = .ok vals args →
      vals.get "dataset-id" ≠ "" →
      Dataset.Release deps apiURI token (vals.get "dataset-id") = ⟨t, .ret (some e)⟩ →
      handleDatasetReleaseCommand deps ⟨apiURI, token, "dataset" :: "release" :: rest⟩ =
          ⟨.call (.datasetRelease apiURI token (vals.get "dataset-id")) :: t,
            .ret (some ("Error: failed to release dataset, reason: " ++ e ++ "\n"))⟩ ∧
        main deps argv =
          ⟨.call (.datasetRelease apiURI token (vals.get "dataset-id")) :: t ++
            [.stderr ("Error: failed to release dataset, reason: " ++ e ++ "\n" ++ "\n")],
            .exit 1⟩) := by
  refine ⟨?_, ?_, ?_, ?_, ?_, ?_⟩
  · intro hg hp h1 h2 h3 h4 he
    have hh : handleFileAccessionCommand deps ⟨apiURI, token, "file" :: "set-accession" :: rest⟩ =
        ⟨[.call (.fileSetAccession apiURI token (vals.get "user") (vals.get "filepath")
            (vals.get "accession-id"))],
          .ret (some ("Error: failed to assign accession ID to file, reason: " ++ e ++ "\n"))⟩ := by
      simp [handleFileAccessionCommand, sliceFrom, FlagSet.Parse_ok _ _ _ _ _ hp, Run.bind,
        Run.pure, Run.emit, h1, h2, h3, h4, he, htok]
    refine ⟨hh, ?_⟩
    simp [main, hg, Run.bind, Run.pure, exitOnError, Globals.Arg, Globals.NArg,
      handleFileCommand_cons, hh, Run.emit, Run.exit]
  · intro hg hp h1 h2 h4 he
    have hh : handleFileIngestCommand deps ⟨apiURI, token, "file" :: "ingest" :: rest⟩ =
        ⟨[.call (.fileIngest apiURI token (vals.get "user") (vals.get "filepath"))],
          .ret (some ("Error: failed to ingest file, reason: " ++ e ++ "\n"))⟩ := by
      simp [handleFileIngestCommand, sliceFrom, FlagSet.Parse_ok _ _ _ _ _ hp, Run.bind,
        Run.pure, Run.emit, h1, h2, h4, he, htok]
    refine ⟨hh, ?_⟩
    simp [main, hg, Run.bind, Run.pure, exitOnError, Globals.Arg, Globals.NArg,
      handleFileCommand_cons, hh, Run.emit, Run.exit]
  · intro hg hp h1 he
    have hh : handleFileListCommand deps ⟨apiURI, token, "file" :: "list" :: rest⟩ =
        ⟨[.call (.fileList apiURI token (vals.get "user"))],
          .ret (some ("Error: failed to get files, reason: " ++ e ++ "\n"))⟩ := by
      simp [handleFileListCommand, sliceFrom, FlagSet.Parse_ok _ _ _ _ _ hp, Run.bind,
        Run.pure, Run.emit, h1, he, htok]
    refine ⟨hh, ?_⟩
    simp [main, hg, Run.bind, Run.pure, exitOnError, Globals.Arg, Globals.NArg,
      handleFileCommand_cons, hh, Run.emit, Run.exit]
  · intro hg he
    have hh : handleUserCommand deps ⟨apiURI, token, "user" :: "list" :: rest⟩ =
        ⟨[.call (.userList apiURI token)],
          .ret (some ("Error: failed to get users, reason: " ++ e ++ "\n"))⟩ := by
      simp [handleUserCommand_list, he, htok]
    refine ⟨hh, ?_⟩
    simp [main, hg, Run.bind, Run.pure, exitOnError, Globals.Arg, hh, Run.emit, Run.exit]
  · intro hg hp h1 h2 he
    have hh : handleDatasetCreateCommand deps ⟨apiURI, token, "dataset" :: "create" :: rest⟩ =
        ⟨.call (.datasetCreate apiURI token (vals.get "dataset-id") args) :: t,
          .ret (some ("Error: failed to create dataset, reason: " ++ e ++ "\n"))⟩ := by
      simp [handleDatasetCreateCommand, sliceFrom, FlagSet.Parse_ok _ _ _ _ _ hp, Run.bind,
        Run.pure, Run.emit, h1, h2, he, htok]
    refine ⟨hh, ?_⟩
    simp [main, hg, Run.bind, Run.pure, exitOnError, Globals.Arg, Globals.NArg,
      handleDatasetCommand_cons, hh, Run.emit, Run.exit]
  · intro hg hp h1 he
    have hh : handleDatasetReleaseCommand deps ⟨apiURI, token, "dataset" :: "release" :: rest⟩ =
        ⟨.call (.datasetRelease apiURI token (vals.get "dataset-id")) :: t,
          .ret (some ("Error: failed to release dataset, reason: " ++ e ++ "\n"))⟩ := by
      simp [handleDatasetReleaseCommand, sliceFrom, FlagSet.Parse_ok _ _ _ _ _ hp, Run.bind,
        Run.pure, Run.emit, h1, he, htok]
    refine ⟨hh, ?_⟩
    simp [main, hg, Run.bind, Run.pure, exitOnError, Globals.Arg, Globals.NArg,
      handleDatasetCommand_cons, hh, Run.emit, Run.exit]

/-- C9, witness: the server refuses `file set-accession -filepath /data/a.txt
-user alice -accession-id ACC1` with the reason `status 500`. -/
theorem C9_client_error_reported_witness :
    main failingDeps ["-uri", "http://api.example", "-token", "t", "file", "set-accession",
        "-filepath", "/data/a.txt", "-user", "alice", "-accession-id", "ACC1"] =
      ⟨[.call (.fileSetAccession "http://api.example" "t" "alice" "/data/a.txt" "ACC1"),
        .stderr ("Error: failed to assign accession ID to file, reason: " ++ "status 500" ++
          "\n" ++ "\n")], .exit 1⟩ :=
  ((C9_client_error_reported failingDeps
      ["-uri", "http://api.example", "-token", "t", "file", "set-accession",
        "-filepath", "/data/a.txt", "-user", "alice", "-accession-id", "ACC1"]
      "http://api.example" "t" "status 500"
      ["-filepath", "/data/a.txt", "-user", "alice", "-accession-id", "ACC1"]
      [("accession-id", "ACC1"), ("user", "alice"), ("filepath", "/data/a.txt")] [] [] rfl).1
      (by decide) rfl (by decide) (by decide) (by decide) (by decide) rfl).2

/-- The argument `-dataset-id` names the flag `dataset-id` and carries no
value of its own. -/
theorem classify_dataset_id : classify "-dataset-id" = .flag "dataset-id" none := by decide

/-- The arguments `-dataset-id D A1 ... An`, where `A1` is not of the form of
a flag, parse to the dataset ID `D` and the accession IDs `A1 ... An`. -/
theorem parse_dataset_create (D A1 : String) (As : List String)
    (hA : classify A1 = .nonFlag) :
    parseArgs datasetCreateCmd.formal ("-dataset-id" :: D :: A1 :: As) [] =
      .ok [("dataset-id", D)] (A1 :: As) := by
  cases As <;> simp [parseArgs, classify_dataset_id, datasetCreateCmd, hA]

/-- The two elements of `dataset/release`. -/
theorem dataset_release_elements :
    utf8 "dataset/release" = utf8 "dataset" ++ ch '/' :: utf8 "release" := by
  decide

/-- The two elements of `dataset/create`. -/
theorem dataset_create_elements :
    utf8 "dataset/create" = utf8 "dataset" ++ ch '/' :: utf8 "create" := by
  decide

/-- The release URL of a base URI whose path is a rooted path of proper
elements followed by slashes. -/
theorem release_path_elements (u : GoUrl.URL) (es : List Bytes) (k : Nat) (d : String)
    (hpath : u.Path = GoPath.rootedPath es ++ List.replicate k (ch '/'))
    (hes : ∀ x ∈ es, GoPath.isElement x) (h : es ≠ [] ∨ 0 < k) :
    GoPath.Join [u.Path, utf8 "dataset/release"] ++ utf8 "/" ++ utf8 d =
      GoPath.rootedPath (es ++ [utf8 "dataset", utf8 "release"]) ++ ch '/' :: utf8 d := by
  rw [hpath, dataset_release_elements,
    GoPath.Join_rootedPath es k _ _ hes (by decide) (by decide) h]
  simp [show utf8 "/" = [ch '/'] from by decide]

/-- The text of the release URL of a plain base URI. -/
theorem release_plain_text (u : GoUrl.URL) (es : List Bytes) (k : Nat) (d : String)
    (hp : u.isPlain)
    (hpath : u.Path = GoPath.rootedPath es ++ List.replicate k (ch '/'))
    (hes : ∀ x ∈ es, GoPath.isElement x ∧ ∀ c ∈ x, GoUrl.unreserved c) :
    ({ u with Path := GoPath.Join [u.Path, utf8 "dataset/release"] ++ utf8 "/" ++ utf8 d }
      : GoUrl.URL).String =
      u.Scheme ++ utf8 "://" ++ u.Host ++
        GoPath.rootedPath (es ++ [utf8 "dataset", utf8 "release"]) ++
        ch '/' :: GoUrl.escape (utf8 d) .encodePath := by
  have h := plain_joined_url u hp es k (utf8 "dataset") (utf8 "release") (utf8 "/" ++ utf8 d)
    hpath (fun x hx => (hes x hx).1) (fun x hx => (hes x hx).2) (by decide) (by decide)
    (by decide) (by decide) (by decide)
  rw [← dataset_release_elements, ← List.append_assoc] at h
  rw [h, GoUrl.escape_append, show utf8 "/" = [ch '/'] from by decide, GoUrl.escape_slash]
  simp

/-- The text of the create URL of a plain base URI. -/
theorem create_plain_text (u : GoUrl.URL) (es : List Bytes) (k : Nat)
    (hp : u.isPlain)
    (hpath : u.Path = GoPath.rootedPath es ++ List.replicate k (ch '/'))
    (hes : ∀ x ∈ es, GoPath.isElement x ∧ ∀ c ∈ x, GoUrl.unreserved c) :
    ({ u with Path := GoPath.Join [u.Path, utf8 "dataset/create"] } : GoUrl.URL).String =
      u.Scheme ++ utf8 "://" ++ u.Host ++
        GoPath.rootedPath (es ++ [utf8 "dataset", utf8 "create"]) := by
  have h := plain_joined_url u hp es k (utf8 "dataset") (utf8 "create") []
    hpath (fun x hx => (hes x hx).1) (fun x hx => (hes x hx).2) (by decide) (by decide)
    (by decide) (by decide) (by decide)
  rw [← dataset_create_elements, List.append_nil] at h
  rw [h]
  simp [GoUrl.escape]

/-- C10, counterexample.  With the dataset ID `DS1`, a token that is not
expired and at least one accession ID: for a base URI that does not parse,
`Create` is invoked but no request is sent and the process exits with
status 1; for the base URI `localhost:8080`, which `url.Parse` reads as a
scheme and an opaque part, the request goes to `localhost:8080`, without
`dataset/create`; and when the first accession ID has the form of a flag,
`Create` is not invoked at all and the process exits with status 2. -/
theorem C10_counterexample :
    ((handleDatasetCreateCommand sampleDeps
        ⟨"http://api.example/%zz", "t", ["dataset", "create", "-dataset-id", "DS1", "A1"]⟩).calls
        = [.datasetCreate "http://api.example/%zz" "t" "DS1" ["A1"]] ∧
      (handleDatasetCreateCommand sampleDeps
        ⟨"http://api.example/%zz", "t", ["dataset", "create", "-dataset-id", "DS1", "A1"]⟩).requests
        = [] ∧
      (main sampleDeps ["-uri", "http://api.example/%zz", "-token", "t", "dataset", "create",
        "-dataset-id", "DS1", "A1"]).requests = [] ∧
      (main sampleDeps ["-uri", "http://api.example/%zz", "-token", "t", "dataset", "create",
        "-dataset-id", "DS1", "A1"]).status = .exit 1) ∧
    ((handleDatasetCreateCommand sampleDeps
        ⟨"localhost:8080", "t", ["dataset", "create", "-dataset-id", "DS1", "A1"]⟩).requests =
      [⟨"POST", utf8 "localhost:8080", "t",
        some ⟨[("accession_ids", .strings ["A1"]), ("dataset_id", .string "DS1"),
          ("user", .string "admin")]⟩⟩] ∧
      (main sampleDeps ["-uri", "localhost:8080", "-token", "t", "dataset", "create",
        "-dataset-id", "DS1", "A1"]).requests =
      [⟨"POST", utf8 "localhost:8080", "t",
        some ⟨[("accession_ids", .strings ["A1"]), ("dataset_id", .string "DS1"),
          ("user", .string "admin")]⟩⟩]) ∧
    ((handleDatasetCreateCommand sampleDeps
        ⟨"http://api.example", "t", ["dataset", "create", "-dataset-id", "DS1", "-x", "A2"]⟩).calls
        = [] ∧
      (main sampleDeps ["-uri", "http://api.example", "-token", "t", "dataset", "create",
        "-dataset-id", "DS1", "-x", "A2"]).calls = [] ∧
      (main sampleDeps ["-uri", "http://api.example", "-token", "t", "dataset", "create",
        "-dataset-id", "DS1", "-x", "A2"]).requests = [] ∧
      (main sampleDeps ["-uri", "http://api.example", "-token", "t", "dataset", "create",
        "-dataset-id", "DS1", "-x", "A2"]).status = .exit 2) := by
  refine ⟨⟨by decide, by decide, by decide, by decide⟩, ⟨by decide, by decide⟩,
    ⟨by decide, by decide, by decide, by decide⟩⟩

/-- C10, amended.  For `dataset create -dataset-id D A1 ... An` with `n ≥ 1`,
`A1` not of the form of a flag, `D` not empty, a token that is not expired
and a base URI that `url.Parse` accepts, as `u`: the handler invokes
`Dataset.Create` exactly once, with the base URI, the token, `D` and
`A1 ... An`, and sends exactly one request, a POST to `u` with its path
replaced by the cleaned join of that path with `dataset/create`, whose JSON
body has exactly the fields `accession_ids` (the list `A1 ... An` in
command-line order), `dataset_id` (`D`) and `user` (the username given to
`Create`).  When `u` has the plain form `scheme://host[:port]/e1/.../en`
followed by any number of slashes, with elements of unreserved bytes, the
URL of that request is `scheme://host[:port]/e1/.../en/dataset/create`: so
for the handler, for `Create` with every username, and for `main` when it
dispatches these arguments.  The last conjunct is a base URI whose path the
join cleans and the URL escapes:
`http://api.example/my%20api/./v1/../v2//` gives
`http://api.example/my%20api/v2/dataset/create`. -/
theorem C10_dataset_create_amended (deps : Deps) (apiURI token D A1 : String)
    (As : List String) (u : GoUrl.URL) (es : List Bytes) (k : Nat)
    (hD : D ≠ "") (hA : classify A1 = .nonFlag)
    (htok : deps.CheckTokenExpiration token = none)
    (hu : GoUrl.Parse (utf8 apiURI) = .ok u) :
    (handleDatasetCreateCommand deps
        ⟨apiURI, token, "dataset" :: "create" :: "-dataset-id" :: D :: A1 :: As⟩).calls =
      [.datasetCreate apiURI token D (A1 :: As)] ∧
    (handleDatasetCreateCommand deps
        ⟨apiURI, token, "dataset" :: "create" :: "-dataset-id" :: D :: A1 :: As⟩).requests =
      [⟨"POST",
        ({ u with Path := GoPath.Join [u.Path, utf8 "dataset/create"] } : GoUrl.URL).String,
        token,
        some ⟨[("accession_ids", .strings (A1 :: As)), ("dataset_id", .string D),
          ("user", .string deps.createUsername)]⟩⟩] ∧
    (u.isPlain → u.Path = GoPath.rootedPath es ++ List.replicate k (ch '/') →
      (∀ x ∈ es, GoPath.isElement x ∧ ∀ c ∈ x, GoUrl.unreserved c) →
      (handleDatasetCreateCommand deps
          ⟨apiURI, token, "dataset" :: "create" :: "-dataset-id" :: D :: A1 :: As⟩).requests =
        [⟨"POST",
          u.Scheme ++ utf8 "://" ++ u.Host ++
            GoPath.rootedPath (es ++ [utf8 "dataset", utf8 "create"]),
          token,
          some ⟨[("accession_ids", .strings (A1 :: As)), ("dataset_id", .string D),
            ("user", .string deps.createUsername)]⟩⟩] ∧
      (∀ username : String,
        (Dataset.Create deps apiURI token D username (A1 :: As)).trace =
          [.request ⟨"POST",
            u.Scheme ++ utf8 "://" ++ u.Host ++
              GoPath.rootedPath (es ++ [utf8 "dataset", utf8 "create"]),
            token,
            some ⟨[("accession_ids", .strings (A1 :: As)), ("dataset_id", .string D),
              ("user", .string username)]⟩⟩]) ∧
      (∀ argv : List String,
        parseFlagsAndEnv deps argv =
          ⟨[], .ret (none,
            ⟨apiURI, token, "dataset" :: "create" :: "-dataset-id" :: D :: A1 :: As⟩)⟩ →
        (main deps argv).calls = [.datasetCreate apiURI token D (A1 :: As)] ∧
        (main deps argv).requests =
          [⟨"POST",
            u.Scheme ++ utf8 "://" ++ u.Host ++
              GoPath.rootedPath (es ++ [utf8 "dataset", utf8 "create"]),
            token,
            some ⟨[("accession_ids", .strings (A1 :: As)), ("dataset_id", .string D),
              ("user", .string deps.createUsername)]⟩⟩])) ∧
    (∀ username : String,
      (Dataset.Create deps "http://api.example/my%20api/./v1/../v2//" token D username
          (A1 :: As)).trace =
        [.request ⟨"POST", utf8 "http://api.example/my%20api/v2/dataset/create", token,
          some ⟨[("accession_ids", .strings (A1 :: As)), ("dataset_id", .string D),
            ("user", .string username)]⟩⟩]) := by
  have hc : ∀ username : String,
      Dataset.Create deps apiURI token D username (A1 :: As) =
        Dataset.postRequest deps
          ({ u with Path := GoPath.Join [u.Path, utf8 "dataset/create"] } : GoUrl.URL).String
          token
          (some ⟨[("accession_ids", .strings (A1 :: As)), ("dataset_id", .string D),
            ("user", .string username)]⟩) := by
    intro username
    simp [Dataset.Create, Dataset.createURL, hu, Dataset.jsonMarshal]
  have hp := parse_dataset_create D A1 As hA
  have key : ∀ url : Bytes,
      ({ u with Path := GoPath.Join [u.Path, utf8 "dataset/create"] } : GoUrl.URL).String = url →
      (handleDatasetCreateCommand deps
          ⟨apiURI, token, "dataset" :: "create" :: "-dataset-id" :: D :: A1 :: As⟩).calls =
        [.datasetCreate apiURI token D (A1 :: As)] ∧
      (handleDatasetCreateCommand deps
          ⟨apiURI, token, "dataset" :: "create" :: "-dataset-id" :: D :: A1 :: As⟩).requests =
        [⟨"POST", url, token,
          some ⟨[("accession_ids", .strings (A1 :: As)), ("dataset_id", .string D),
            ("user", .string deps.createUsername)]⟩⟩] ∧
      (∀ username : String,
        (Dataset.Create deps apiURI token D username (A1 :: As)).trace =
          [.request ⟨"POST", url, token,
            some ⟨[("accession_ids", .strings (A1 :: As)), ("dataset_id", .string D),
              ("user", .string username)]⟩⟩]) ∧
      (∀ argv : List String,
        parseFlagsAndEnv deps argv =
          ⟨[], .ret (none,
            ⟨apiURI, token, "dataset" :: "create" :: "-dataset-id" :: D :: A1 :: As⟩)⟩ →
        (main deps argv).calls = [.datasetCreate apiURI token D (A1 :: As)] ∧
        (main deps argv).requests =
          [⟨"POST", url, token,
            some ⟨[("accession_ids", .strings (A1 :: As)), ("dataset_id", .string D),
              ("user", .string deps.createUsername)]⟩⟩]) := by
    intro url hurl
    rw [hurl] at hc
    cases hr : deps.PostRequest url token
        (some ⟨[("accession_ids", .strings (A1 :: As)), ("dataset_id", .string D),
          ("user", .string deps.createUsername)]⟩) with
    | error e =>
      have hh : handleDatasetCreateCommand deps
          ⟨apiURI, token, "dataset" :: "create" :: "-dataset-id" :: D :: A1 :: As⟩ =
          ⟨[.call (.datasetCreate apiURI token D (A1 :: As)),
            .request ⟨"POST", url, token,
              some ⟨[("accession_ids", .strings (A1 :: As)), ("dataset_id", .string D),
                ("user", .string deps.createUsername)]⟩⟩],
            .ret (some ("Error: failed to create dataset, reason: " ++ e ++ "\n"))⟩ := by
        simp [handleDatasetCreateCommand, sliceFrom, FlagSet.Parse_ok _ _ _ _ _ hp, Run.bind,
          Run.pure, Run.emit, Values.get, hD, htok, hc, Dataset.postRequest, hr]
      refine ⟨?_, ?_, fun username => by rw [hc username]; rfl, fun argv hg => ⟨?_, ?_⟩⟩
      · simp [hh, Run.calls]
      · simp [hh, Run.requests]
      · simp [main, hg, Run.bind, Run.pure, exitOnError, Globals.Arg, handleDatasetCommand_cons,
          hh, Run.emit, Run.exit, Run.calls]
      · simp [main, hg, Run.bind, Run.pure, exitOnError, Globals.Arg, handleDatasetCommand_cons,
          hh, Run.emit, Run.exit, Run.requests]
    | ok resp =>
      have hh : handleDatasetCreateCommand deps
          ⟨apiURI, token, "dataset" :: "create" :: "-dataset-id" :: D :: A1 :: As⟩ =
          ⟨[.call (.datasetCreate apiURI token D (A1 :: As)),
            .request ⟨"POST", url, token,
              some ⟨[("accession_ids", .strings (A1 :: As)), ("dataset_id", .string D),
                ("user", .string deps.createUsername)]⟩⟩,
            .stdout "Dataset created successfully.\n"],
            .ret none⟩ := by
        simp [handleDatasetCreateCommand, sliceFrom, FlagSet.Parse_ok _ _ _ _ _ hp, Run.bind,
          Run.pure, Run.emit, Values.get, hD, htok, hc, Dataset.postRequest, hr]
      refine ⟨?_, ?_, fun username => by rw [hc username]; rfl, fun argv hg => ⟨?_, ?_⟩⟩
      · simp [hh, Run.calls]
      · simp [hh, Run.requests]
      · simp [main, hg, Run.bind, Run.pure, exitOnError, Globals.Arg, handleDatasetCommand_cons,
          hh, Run.emit, Run.exit, Run.calls]
      · simp [main, hg, Run.bind, Run.pure, exitOnError, Globals.Arg, handleDatasetCommand_cons,
          hh, Run.emit, Run.exit, Run.requests]
  refine ⟨(key _ rfl).1, (key _ rfl).2.1,
    fun hpl hpath hes => (key _ (create_plain_text u es k hpl hpath hes)).2, fun username => ?_⟩
  have h2 : (Dataset.createURL "http://api.example/my%20api/./v1/../v2//").map
      GoUrl.URL.String = .ok (utf8 "http://api.example/my%20api/v2/dataset/create") := by decide
  unfold Dataset.Create
  cases h3 : Dataset.createURL "http://api.example/my%20api/./v1/../v2//" with
  | error err => simp [h3, Except.map] at h2
  | ok v =>
    simp only [h3, Except.map, Except.ok.injEq] at h2
    simp [Dataset.postRequest, Dataset.jsonMarshal, h2]

/-- C10, witness of the amendment: `dataset create -dataset-id DS1 A1 A2`
against `http://api.example:8080/my%20api//` in the handler, and against
`http://api.example:8080/api/v1//` run through `main`. -/
theorem C10_dataset_create_amended_witness :
    (handleDatasetCreateCommand sampleDeps
        ⟨"http://api.example:8080/my%20api//", "t",
          ["dataset", "create", "-dataset-id", "DS1", "A1", "A2"]⟩).requests =
      [⟨"POST", utf8 "http://api.example:8080/my%20api/dataset/create", "t",
        some ⟨[("accession_ids", .strings ["A1", "A2"]), ("dataset_id", .string "DS1"),
          ("user", .string "admin")]⟩⟩] ∧
    (main sampleDeps ["-uri", "http://api.example:8080/api/v1//", "-token", "t", "dataset",
        "create", "-dataset-id", "DS1", "A1", "A2"]).calls =
      [.datasetCreate "http://api.example:8080/api/v1//" "t" "DS1" ["A1", "A2"]] ∧
    (main sampleDeps ["-uri", "http://api.example:8080/api/v1//", "-token", "t", "dataset",
        "create", "-dataset-id", "DS1", "A1", "A2"]).requests =
      [⟨"POST", utf8 "http://api.example:8080/api/v1/dataset/create", "t",
        some ⟨[("accession_ids", .strings ["A1", "A2"]), ("dataset_id", .string "DS1"),
          ("user", .string "admin")]⟩⟩] :=
  ⟨(C10_dataset_create_amended sampleDeps "http://api.example:8080/my%20api//" "t" "DS1" "A1"
      ["A2"]
      { Scheme := utf8 "http", Host := utf8 "api.example:8080", Path := utf8 "/my api//" }
      [] 0 (by decide) (by decide) rfl (by decide)).2.1.trans (by decide),
   (((C10_dataset_create_amended sampleDeps "http://api.example:8080/api/v1//" "t" "DS1" "A1"
      ["A2"] { Scheme := utf8 "http", Host := utf8 "api.example:8080", Path := utf8 "/api/v1//" }
      [utf8 "api", utf8 "v1"] 2
      (by decide) (by decide) rfl (by decide)).2.2.1 (by decide) (by decide)
      (by decide)).2.2 _ (by decide)).1,
   (((C10_dataset_create_amended sampleDeps "http://api.example:8080/api/v1//" "t" "DS1" "A1"
      ["A2"] { Scheme := utf8 "http", Host := utf8 "api.example:8080", Path := utf8 "/api/v1//" }
      [utf8 "api", utf8 "v1"] 2
      (by decide) (by decide) rfl (by decide)).2.2.1 (by decide) (by decide)
      (by decide)).2.2 _ (by decide)).2.trans (by decide)⟩

/-- The base URI `http://api.example` and the dataset ID `DS1` give the
release URL `http://api.example/dataset/release/DS1`. -/
theorem releaseURL_example :
    (Dataset.releaseURL "http://api.example" "DS1").map GoUrl.URL.String =
      .ok (utf8 "http://api.example/dataset/release/DS1") := by decide

/-- C1. `Dataset.Release` on a base URI that parses to `u` sends exactly one
request, a POST without body, to the URL that is `u` with its path replaced
by the cleaned join of that path with `dataset/release`, followed by `/` and
the dataset ID (first conjunct).  When the path of `u` is `/e1/.../en`
followed by any number of slashes, that path is
`/e1/.../en/dataset/release/d` (second conjunct), and when moreover `u` has
the plain form `scheme://host[:port]` with elements of unreserved bytes, the
URL is `scheme://host[:port]/e1/.../en/dataset/release/` followed by `d`
escaped for a path (third conjunct).  The fourth conjunct is a base path the
join cleans and a dataset ID that is escaped.  In particular (fifth
conjunct) the command `dataset release -dataset-id DS1` with the base URI
`http://api.example` and a token `T` that is not expired invokes the helper
once, with method POST and the URL `http://api.example/dataset/release/DS1`;
when the helper succeeds the handler prints `Dataset released successfully.`
and the process exits with status 0. -/
theorem C1_dataset_release (deps : Deps) (apiURI token d T : String) (u : GoUrl.URL)
    (resp : Bytes) (es : List Bytes) (k : Nat) :
    (GoUrl.Parse (utf8 apiURI) = .ok u →
      (Dataset.Release deps apiURI token d).trace =
        [.request ⟨"POST",
          ({ u with Path := GoPath.Join [u.Path, utf8 "dataset/release"] ++ utf8 "/" ++ utf8 d }
            : GoUrl.URL).String, token, none⟩]) ∧
    (GoUrl.Parse (utf8 apiURI) = .ok u →
      u.Path = GoPath.rootedPath es ++ List.replicate k (ch '/') →
      (∀ x ∈ es, GoPath.isElement x) → (es ≠ [] ∨ 0 < k) →
      (Dataset.Release deps apiURI token d).trace =
        [.request ⟨"POST",
          ({ u with Path := (GoPath.rootedPath (es ++ [utf8 "dataset", utf8 "release"]) ++
              ch '/' :: utf8 d) } : GoUrl.URL).String, token, none⟩]) ∧
    (GoUrl.Parse (utf8 apiURI) = .ok u → u.isPlain →
      u.Path = GoPath.rootedPath es ++ List.replicate k (ch '/') →
      (∀ x ∈ es, GoPath.isElement x ∧ ∀ c ∈ x, GoUrl.unreserved c) →
      (Dataset.Release deps apiURI token d).trace =
        [.request ⟨"POST",
          u.Scheme ++ utf8 "://" ++ u.Host ++
            GoPath.rootedPath (es ++ [utf8 "dataset", utf8 "release"]) ++
            ch '/' :: GoUrl.escape (utf8 d) .encodePath, token, none⟩]) ∧
    (Dataset.Release deps "http://api.example/api/./v1/../v2//" token "DS 1/x?").trace =
      [.request ⟨"POST", utf8 "http://api.example/api/v2/dataset/release/DS%201/x%3F", token,
        none⟩] ∧
    (T ≠ "" → deps.CheckTokenExpiration T = none →
      deps.PostRequest (utf8 "http://api.example/dataset/release/DS1") T none = .ok resp →
      main deps ["-uri", "http://api.example", "-token", T, "dataset", "release",
          "-dataset-id", "DS1"] =
        ⟨[.call (.datasetRelease "http://api.example" T "DS1"),
          .request ⟨"POST", utf8 "http://api.example/dataset/release/DS1", T, none⟩,
          .stdout "Dataset released successfully.\n"], .exit 0⟩) := by
  have h1 : GoUrl.Parse (utf8 apiURI) = .ok u →
      (Dataset.Release deps apiURI token d).trace =
        [.request ⟨"POST",
          ({ u with Path := GoPath.Join [u.Path, utf8 "dataset/release"] ++ utf8 "/" ++ utf8 d }
            : GoUrl.URL).String, token, none⟩] := by
    intro hu
    simp [Dataset.Release, Dataset.releaseURL, hu, Dataset.postRequest]
  refine ⟨h1, ?_, ?_, ?_, ?_⟩
  · intro hu hpath hes hk
    rw [h1 hu, release_path_elements u es k d hpath hes hk]
  · intro hu hp hpath hes
    rw [h1 hu, release_plain_text u es k d hp hpath hes]
  · have h2 : (Dataset.releaseURL "http://api.example/api/./v1/../v2//" "DS 1/x?").map
        GoUrl.URL.String =
        .ok (utf8 "http://api.example/api/v2/dataset/release/DS%201/x%3F") := by decide
    unfold Dataset.Release
    cases h3 : Dataset.releaseURL "http://api.example/api/./v1/../v2//" "DS 1/x?" with
    | error err => simp [h3, Except.map] at h2
    | ok v =>
      simp only [h3, Except.map, Except.ok.injEq] at h2
      simp [Dataset.postRequest, h2]
  · intro hT htok hok
    have hg : parseFlagsAndEnv deps ["-uri", "http://api.example", "-token", T, "dataset",
        "release", "-dataset-id", "DS1"] =
        ⟨[], .ret (none, ⟨"http://api.example", T,
          ["dataset", "release", "-dataset-id", "DS1"]⟩)⟩ := by
      rw [parseFlagsAndEnv_command deps
        ["-uri", "http://api.example", "-token", T, "dataset", "release", "-dataset-id", "DS1"]
        [("token", T), ("uri", "http://api.example")]
        "dataset" ["release", "-dataset-id", "DS1"] rfl (by decide)]
      simp [Values.get, hT]
    have hp : parseArgs datasetReleaseCmd.formal ["-dataset-id", "DS1"] [] =
        .ok [("dataset-id", "DS1")] [] := rfl
    have hr : Dataset.Release deps "http://api.example" T "DS1" =
        ⟨[.request ⟨"POST", utf8 "http://api.example/dataset/release/DS1", T, none⟩],
          .ret none⟩ := by
      have h1 := releaseURL_example
      unfold Dataset.Release
      cases h2 : Dataset.releaseURL "http://api.example" "DS1" with
      | error err => simp [h2, Except.map] at h1
      | ok v =>
        simp only [h2, Except.map, Except.ok.injEq] at h1
        simp [Dataset.postRequest, h1, hok]
    simp [main, hg, Run.bind, Run.pure, exitOnError, Globals.Arg, handleDatasetCommand_cons,
      handleDatasetReleaseCommand, sliceFrom, FlagSet.Parse_ok _ _ _ _ _ hp, Values.get, htok,
      hr, Run.emit, Run.exit]

/-- C1, witness: the sample collaborators, whose helper answers every request
with success, the token `t`, the base URI `http://api.example:8080/api/v1//`
with the dataset ID `DS 1`, the base URI `http://api.example/a/../b/` with
the dataset ID `x?y`, and the command of the claim. -/
theorem C1_dataset_release_witness :
    (Dataset.Release sampleDeps "http://api.example:8080/api/v1//" "t" "DS 1").trace =
        [.request ⟨"POST", utf8 "http://api.example:8080/api/v1/dataset/release/DS%201", "t",
          none⟩] ∧
      (Dataset.Release sampleDeps "http://api.example/a/../b/" "t" "x?y").trace =
        [.request ⟨"POST", utf8 "http://api.example/b/dataset/release/x%3Fy", "t", none⟩] ∧
      main sampleDeps ["-uri", "http://api.example", "-token", "t", "dataset", "release",
          "-dataset-id", "DS1"] =
        ⟨[.call (.datasetRelease "http://api.example" "t" "DS1"),
          .request ⟨"POST", utf8 "http://api.example/dataset/release/DS1", "t", none⟩,
          .stdout "Dataset released successfully.\n"], .exit 0⟩ :=
  ⟨((C1_dataset_release sampleDeps "http://api.example:8080/api/v1//" "t" "DS 1" "t"
      { Scheme := utf8 "http", Host := utf8 "api.example:8080", Path := utf8 "/api/v1//" } []
      [utf8 "api", utf8 "v1"] 2).2.2.1 (by decide) (by decide) (by decide)
      (by decide)).trans (by decide),
   ((C1_dataset_release sampleDeps "http://api.example/a/../b/" "t" "x?y" "t"
      { Scheme := utf8 "http", Host := utf8 "api.example", Path := utf8 "/a/../b/" } []
      [] 0).1 (by decide)).trans (by decide),
   (C1_dataset_release sampleDeps "http://api.example" "t" "DS1" "t"
      { Scheme := utf8 "http", Host := utf8 "api.example" } [] [] 0).2.2.2.2
      (by decide) rfl rfl⟩

/-- C2, counterexample.  A base URI with a query, a base URI with a
fragment, and a base URI of the form `host:port` (which `url.Parse` reads as
scheme and opaque text, with no host), each give a different URL once a slash
is appended.  The fourth pair shows the same for `Release` on a base path
with an unusual escape. -/
theorem C2_counterexample :
    ((Dataset.createURL "http://api.example?v=1").map GoUrl.URL.String =
        .ok (utf8 "http://api.example/dataset/create?v=1") ∧
      (Dataset.createURL "http://api.example?v=1/").map GoUrl.URL.String =
        .ok (utf8 "http://api.example/dataset/create?v=1/")) ∧
    ((Dataset.createURL "http://api.example#top").map GoUrl.URL.String =
        .ok (utf8 "http://api.example/dataset/create#top") ∧
      (Dataset.createURL "http://api.example#top/").map GoUrl.URL.String =
        .ok (utf8 "http://api.example/dataset/create#top/")) ∧
    ((Dataset.createURL "localhost:8080").map GoUrl.URL.String = .ok (utf8 "localhost:8080") ∧
      (Dataset.createURL "localhost:8080/").map GoUrl.URL.String =
        .ok (utf8 "localhost:8080/")) ∧
    ((Dataset.releaseURL "http://h/dataset/release/%2E%2E/.." "../..").map GoUrl.URL.String =
        .ok (utf8 "http://h/dataset/release/%2E%2E/..") ∧
      (Dataset.releaseURL "http://h/dataset/release/%2E%2E/../" "../..").map GoUrl.URL.String =
        .ok (utf8 "http://h/dataset/release/../..")) := by
  refine ⟨⟨?_, ?_⟩, ⟨?_, ?_⟩, ⟨?_, ?_⟩, ⟨?_, ?_⟩⟩ <;> decide

/-- C2, amended.  For every base URI without `?` and `#` that parses with a
non-empty host and with its path in the escaped form Go itself writes (so
that `RawPath` is empty), the URL that `Create` builds and the URL that
`Release` builds for any dataset ID are the same string whether or not any
number of slashes is appended to the base URI. -/
theorem C2_trailing_slash_amended (apiURI d : String) (u : GoUrl.URL) (k : Nat)
    (hq : ch '?' ∉ utf8 apiURI) (hf : ch '#' ∉ utf8 apiURI)
    (hu : GoUrl.Parse (utf8 apiURI) = .ok u) (hh : u.Host ≠ []) (hr : u.RawPath = []) :
    (Dataset.createURL (apiURI ++ String.mk (List.replicate k '/'))).map GoUrl.URL.String =
        (Dataset.createURL apiURI).map GoUrl.URL.String ∧
      (Dataset.releaseURL (apiURI ++ String.mk (List.replicate k '/')) d).map GoUrl.URL.String =
        (Dataset.releaseURL apiURI d).map GoUrl.URL.String := by
  have hp := GoUrl.Parse_append_slashes _ u hq hf hu hh hr k
  constructor
  · simp only [Dataset.createURL, utf8_append, utf8_slashes, hp, hu, Except.map]
    have := joined_trailing_slashes u u.Path (utf8 "dataset/create") [] hh hr (by decide)
      (by decide) (by decide) (by decide) (by decide) k
    simp only [List.append_nil] at this
    rw [this]
  · simp only [Dataset.releaseURL, utf8_append, utf8_slashes, hp, hu, Except.map]
    have := joined_trailing_slashes u u.Path (utf8 "dataset/release") (utf8 "/" ++ utf8 d) hh hr
      (by decide) (by decide) (by decide) (by decide) (by decide) k
    simp only [List.append_assoc] at this ⊢
    rw [this]

/-- C2, witness of the amendment: `http://api.example/api` with two slashes
appended. -/
theorem C2_trailing_slash_amended_witness :
    (Dataset.createURL ("http://api.example/api" ++ String.mk (List.replicate 2 '/'))).map
          GoUrl.URL.String =
        (Dataset.createURL "http://api.example/api").map GoUrl.URL.String ∧
      (Dataset.releaseURL ("http://api.example/api" ++ String.mk (List.replicate 2 '/'))
          "DS1").map GoUrl.URL.String =
        (Dataset.releaseURL "http://api.example/api" "DS1").map GoUrl.URL.String :=
  C2_trailing_slash_amended "http://api.example/api" "DS1"
    { Scheme := utf8 "http", Host := utf8 "api.example", Path := utf8 "/api" } 2
    (by decide) (by decide) (by decide) (by decide) rfl

end SdaAdmin
